import Mathlib

/-!
# Catalog Synchronization & Query Layer — verification development

A shallow embedding of the song-catalog manager's core: the `Song` record
model, the Filter Engine (`FilterManager.applyFilters`), the Remote Store
Adapter (`FirebaseManager`), the Import Deduplicator (`CSVImporter`), the
Migration Guard, and the orchestrator's cache-mutation flows (`SongManager`).

JavaScript strings are modelled as Lean `String`s; the JS built-ins used by
the source (`toLowerCase`, `includes`, `trim`, `split`) are modelled over
`String.data` with ASCII case folding. JS truthiness tests on strings
(`!s`, `s && _`) are modelled as emptiness tests, since the only falsy
string is the empty one. The Firestore backend (not part of the repository)
is modelled as an in-memory keyed collection with a server clock, an id
counter, and a fault-injection schedule for transport failures
(`RemoteError`); document ids are assigned by the store.
-/

/-- Model of JS `String.prototype.toLowerCase` (ASCII case folding). -/
def jsToLower (s : String) : String := ⟨s.data.map Char.toLower⟩

/-- Model of JS `hay.includes(needle)`: substring containment. -/
def jsIncludes (hay needle : String) : Bool := decide (needle.data <:+: hay.data)

/-- The whitespace characters removed by JS `String.prototype.trim`. -/
def jsIsWhitespace (c : Char) : Bool := c = ' ' || c = '\t' || c = '\n' || c = '\r'

/-- Model of JS `String.prototype.trim`: strip whitespace from both ends. -/
def jsTrim (s : String) : String :=
  ⟨((s.data.dropWhile jsIsWhitespace).reverse.dropWhile jsIsWhitespace).reverse⟩

/-- Model of JS `s.split(sep)` for a single-character separator. -/
def jsSplitChar (sep : Char) : List Char → List (List Char)
  | [] => [[]]
  | c :: rest =>
    if c = sep then [] :: jsSplitChar sep rest
    else
      match jsSplitChar sep rest with
      | [] => [[c]]
      | h :: t => (c :: h) :: t

/-- The non-identifier fields of a `Song` record (what survives
`const { id, ...songWithoutId } = song`). -/
structure SongFields where
  artistName : String
  songName : String
  youtubeLink : String
  state : String
  type : String
  comments : String
deriving DecidableEq, Repr

/-- A catalog record as held in the orchestrator's mirror: the fields plus
the identifier. -/
structure Song extends SongFields where
  id : String
deriving DecidableEq, Repr

namespace FilterManager

/-- `applyFilters`' search predicate (filterManager.js lines 83–86):
`searchInput` is the already-lowercased search box value; a song matches when
the search is empty or is contained in the lowercased song name, artist name,
or (when present) comments. -/
def matchesSearch (searchInput : String) (song : Song) : Bool :=
  (searchInput == "")
    || jsIncludes (jsToLower song.songName) searchInput
    || jsIncludes (jsToLower song.artistName) searchInput
    || (!(song.comments == "") && jsIncludes (jsToLower song.comments) searchInput)

/-- `applyFilters`' type predicate (line 88): empty selection means no
constraint. -/
def matchesType (selectedTypes : List String) (song : Song) : Bool :=
  (selectedTypes == []) || selectedTypes.contains song.type

/-- `applyFilters`' state predicate (line 89). -/
def matchesState (selectedStates : List String) (song : Song) : Bool :=
  (selectedStates == []) || selectedStates.contains song.state

/-- The complete per-song filter predicate of `FilterManager.applyFilters`
(line 91). -/
def songFilter (searchInput : String) (selectedTypes selectedStates : List String)
    (song : Song) : Bool :=
  matchesSearch searchInput song && matchesType selectedTypes song
    && matchesState selectedStates song

/-- `FilterManager.applyFilters` (filterManager.js lines 77–92), as a pure
function of the mirror and the query: the search box value is lowercased once
and `songs` is filtered by the three predicates. -/
def applyFilters (songs : List Song) (searchText : String)
    (selectedTypes selectedStates : List String) : List Song :=
  songs.filter (songFilter (jsToLower searchText) selectedTypes selectedStates)

end FilterManager

/-- Case-insensitive substring relation, as the spec words it: `needle` is a
case-insensitive substring of `hay`. -/
def ciSubstr (needle hay : String) : Bool := jsIncludes (jsToLower hay) (jsToLower needle)

/-- The C1 claim's matching predicate, phrased from the spec: (searchText is
empty OR a case-insensitive substring of artistName, songName, or comments)
AND (the type set is empty OR the song's type is in it) AND (the state set is
empty OR the song's state is in it). -/
def matchesClaim (searchText : String) (types states : List String) (song : Song) : Bool :=
  ((searchText == "")
      || ciSubstr searchText song.artistName
      || ciSubstr searchText song.songName
      || ciSubstr searchText song.comments)
    && ((types == []) || decide (song.type ∈ types))
    && ((states == []) || decide (song.state ∈ states))

theorem jsToLower_eq_empty (s : String) : (jsToLower s == "") = (s == "") := by
  cases s with
  | mk l =>
    cases l with
    | nil => rfl
    | cons c t => simp [jsToLower, String.ext_iff]

theorem jsIncludes_empty_hay (needle : String) (h : ¬(needle == "") = true) :
    jsIncludes "" needle = false := by
  simp only [jsIncludes, decide_eq_false_iff_not]
  intro hinf
  simp at hinf
  cases needle with
  | mk l =>
    simp [String.ext_iff] at h
    exact h hinf

theorem jsToLower_empty : jsToLower "" = "" := by decide

theorem matchesSearch_eq_claim (searchText : String) (song : Song) :
    FilterManager.matchesSearch (jsToLower searchText) song
      = ((searchText == "")
          || ciSubstr searchText song.artistName
          || ciSubstr searchText song.songName
          || ciSubstr searchText song.comments) := by
  rcases eq_or_ne searchText "" with h | h
  · subst h
    rw [jsToLower_empty]
    simp [FilterManager.matchesSearch]
  · have h1 : (searchText == "") = false := by simp [h]
    have h2 : (jsToLower searchText == "") = false := by rw [jsToLower_eq_empty]; exact h1
    unfold FilterManager.matchesSearch ciSubstr
    rw [h1, h2]
    rcases eq_or_ne song.comments "" with hc | hc
    · have hcf : jsIncludes "" (jsToLower searchText) = false :=
        jsIncludes_empty_hay _ (by simp [h2])
      rw [hc, jsToLower_empty, hcf]
      generalize jsIncludes (jsToLower song.songName) (jsToLower searchText) = a
      generalize jsIncludes (jsToLower song.artistName) (jsToLower searchText) = b
      cases a <;> cases b <;> simp
    · have hcg : (song.comments == "") = false := by simp [hc]
      rw [hcg]
      generalize jsIncludes (jsToLower song.songName) (jsToLower searchText) = a
      generalize jsIncludes (jsToLower song.artistName) (jsToLower searchText) = b
      generalize jsIncludes (jsToLower song.comments) (jsToLower searchText) = c
      cases a <;> cases b <;> cases c <;> rfl

theorem songFilter_eq_claim (searchText : String) (types states : List String) (song : Song) :
    FilterManager.songFilter (jsToLower searchText) types states song
      = matchesClaim searchText types states song := by
  unfold FilterManager.songFilter matchesClaim
  rw [matchesSearch_eq_claim]
  congr 1
  · congr 1
    unfold FilterManager.matchesType
    simp
  · unfold FilterManager.matchesState
    simp

/-- C1: for every list of songs and every query, `applyFilters` returns
exactly the ordered sub-sequence of the input (a sublist, hence preserving
the original order) of those songs for which (searchText is empty OR a
case-insensitive substring of artistName, songName, or comments) AND (the
type selection is empty OR contains the song's type) AND (the state
selection is empty OR contains the song's state). -/
theorem applyFilters_spec (songs : List Song) (searchText : String)
    (types states : List String) :
    FilterManager.applyFilters songs searchText types states
        = songs.filter (matchesClaim searchText types states)
      ∧ (FilterManager.applyFilters songs searchText types states).Sublist songs := by
  constructor
  · unfold FilterManager.applyFilters
    exact List.filter_congr (fun s _ => songFilter_eq_claim searchText types states s)
  · exact List.filter_sublist songs

/-- The error taxonomy of the Remote Store Adapter: `storeUnavailable` when
the adapter has not completed initialization (the source throws
`'Firebase no está inicializado…'`), `remoteError` for transport/backend
failure, `notFound` for updates addressing a vanished document. -/
inductive FbError where
  | storeUnavailable
  | remoteError
  | notFound
deriving DecidableEq, Repr

/-- A document as persisted in the remote collection: the song fields (the
draft minus its `id`) plus the two server-set timestamps. -/
structure StoredDoc where
  fields : SongFields
  createdAt : Nat
  updatedAt : Nat
deriving DecidableEq, Repr

/-- Environment model of the Firestore `songs` collection: documents keyed by
store-assigned id in insertion order, an id counter, a server clock, and a
fault-injection schedule (`failingWrites` lists the sequence numbers of write
operations that fail with a transport error). -/
structure Firestore where
  docs : List (String × StoredDoc)
  nextId : Nat
  serverNow : Nat
  failingWrites : List Nat
  writeCount : Nat
deriving DecidableEq, Repr

/-- Environment model of `db.collection('songs').add(data)`: on transport
failure the write is consumed and an error raised; otherwise the document is
appended under a fresh store-assigned id, which is returned. -/
def fsAdd (st : Firestore) (data : StoredDoc) : Firestore × Except FbError String :=
  if st.writeCount ∈ st.failingWrites then
    ({ st with writeCount := st.writeCount + 1 }, .error .remoteError)
  else
    ({ st with docs := st.docs ++ [(toString st.nextId, data)],
               nextId := st.nextId + 1,
               writeCount := st.writeCount + 1 },
     .ok (toString st.nextId))

/-- The adapter's observable state: the polling-observable readiness flag set
by `initializeFirebase`. -/
structure FirebaseManager where
  isInitialized : Bool
deriving DecidableEq, Repr

namespace FirebaseManager

/-- Insertion step for ordering a listing by `createdAt` descending. -/
def insertByCreatedAtDesc (d : String × StoredDoc) :
    List (String × StoredDoc) → List (String × StoredDoc)
  | [] => [d]
  | e :: t =>
    if e.2.createdAt ≤ d.2.createdAt then d :: e :: t else e :: insertByCreatedAtDesc d t

/-- Model of the query `orderBy('createdAt', 'desc')`. -/
def sortByCreatedAtDesc (l : List (String × StoredDoc)) : List (String × StoredDoc) :=
  l.foldr insertByCreatedAtDesc []

/-- `FirebaseManager.loadSongs` (part_004 lines 218–241): rejects while the
readiness flag is unset, otherwise returns one `Song` per document —
`{ id: doc.id, ...doc.data() }` — ordered by `createdAt` descending. -/
def loadSongs (m : FirebaseManager) (st : Firestore) :
    Firestore × Except FbError (List Song) :=
  if !m.isInitialized then (st, .error .storeUnavailable)
  else
    (st, .ok ((sortByCreatedAtDesc st.docs).map fun d =>
      { toSongFields := d.2.fields, id := d.1 }))

/-- `FirebaseManager.addSong` (part_004 lines 257–279): rejects while the
readiness flag is unset; otherwise strips the client-supplied `id`
(`const { id, ...songWithoutId } = song`), attaches the server timestamps,
persists via the collection `add`, and returns the remaining fields
augmented with the store-assigned id. -/
def addSong (m : FirebaseManager) (st : Firestore) (song : Song) :
    Firestore × Except FbError Song :=
  if !m.isInitialized then (st, .error .storeUnavailable)
  else
    let songData : StoredDoc :=
      { fields := song.toSongFields, createdAt := st.serverNow, updatedAt := st.serverNow }
    match fsAdd st songData with
    | (st', .ok docId) => (st', .ok { toSongFields := song.toSongFields, id := docId })
    | (st', .error e) => (st', .error e)

/-- `FirebaseManager.updateSong` (part_004 lines 281–299): rejects while the
readiness flag is unset; otherwise writes the given fields with a refreshed
`updatedAt` over the document, failing when the transport fails or the
document does not exist. -/
def updateSong (m : FirebaseManager) (st : Firestore) (songId : String)
    (updatedSong : SongFields) : Firestore × Except FbError Bool :=
  if !m.isInitialized then (st, .error .storeUnavailable)
  else if st.writeCount ∈ st.failingWrites then
    ({ st with writeCount := st.writeCount + 1 }, .error .remoteError)
  else if (st.docs.lookup songId).isNone then
    ({ st with writeCount := st.writeCount + 1 }, .error .notFound)
  else
    ({ st with
        docs := st.docs.map fun d =>
          if d.1 = songId then
            (d.1, { fields := updatedSong, createdAt := d.2.createdAt,
                    updatedAt := st.serverNow })
          else d,
        writeCount := st.writeCount + 1 },
     .ok true)

/-- `FirebaseManager.deleteSong` (part_004 lines 301–314): rejects while the
readiness flag is unset; otherwise removes the document (silently succeeding
when the id is absent, as Firestore deletes do). -/
def deleteSong (m : FirebaseManager) (st : Firestore) (songId : String) :
    Firestore × Except FbError Bool :=
  if !m.isInitialized then (st, .error .storeUnavailable)
  else if st.writeCount ∈ st.failingWrites then
    ({ st with writeCount := st.writeCount + 1 }, .error .remoteError)
  else
    ({ st with docs := st.docs.filter fun d => decide (d.1 ≠ songId),
               writeCount := st.writeCount + 1 },
     .ok true)

/-- The migration loop body of `migrateFromLocalStorage` (part_004 lines
335–350): each legacy record has its local id stripped and is created with
server timestamps; a per-item failure is caught (logged) and the loop
continues. -/
def migrateLoop (st : Firestore) : List Song → Firestore
  | [] => st
  | song :: rest =>
    let songData : StoredDoc :=
      { fields := song.toSongFields, createdAt := st.serverNow, updatedAt := st.serverNow }
    migrateLoop (fsAdd st songData).1 rest

/-- `FirebaseManager.migrateFromLocalStorage` (part_004 lines 316–356):
rejects while the readiness flag is unset; no-op when the legacy local list
is empty; when the remote collection already holds at least as many documents
as the legacy list, migration is skipped; otherwise every legacy record is
created via the migration loop. `localSongs` is the parsed value of
`localStorage.getItem('songs') || '[]'`. -/
def migrateFromLocalStorage (m : FirebaseManager) (st : Firestore)
    (localSongs : List Song) : Firestore × Except FbError Unit :=
  if !m.isInitialized then (st, .error .storeUnavailable)
  else if localSongs.length = 0 then (st, .ok ())
  else if st.docs.length < localSongs.length then (migrateLoop st localSongs, .ok ())
  else (st, .ok ())

end FirebaseManager

/-- C2: on a ready adapter with a non-failing transport, `addSong` persists
the draft's fields with the client-supplied `id` stripped and both server
timestamps attached, returns the remaining fields augmented with the
store-assigned id, and its entire behaviour is independent of any
client-supplied `id` — the store never persists a client identifier. -/
theorem addSong_spec (m : FirebaseManager) (st : Firestore) (song : Song)
    (hinit : m.isInitialized = true)
    (hok : st.writeCount ∉ st.failingWrites) :
    FirebaseManager.addSong m st song
        = ({ st with
              docs := st.docs ++
                [(toString st.nextId,
                  { fields := song.toSongFields, createdAt := st.serverNow,
                    updatedAt := st.serverNow })],
              nextId := st.nextId + 1,
              writeCount := st.writeCount + 1 },
           .ok { toSongFields := song.toSongFields, id := toString st.nextId })
      ∧ ∀ otherId : String,
          FirebaseManager.addSong m st { song with id := otherId }
            = FirebaseManager.addSong m st song := by
  constructor
  · unfold FirebaseManager.addSong fsAdd
    rw [hinit]
    simp [hok]
  · intro otherId
    unfold FirebaseManager.addSong
    rfl

/-- Witness for C2 at a concrete draft carrying a client-supplied id. -/
theorem addSong_spec_witness :
    (FirebaseManager.mk true).isInitialized = true
      ∧ (7 : Nat) ∉ ([] : List Nat)
      ∧ FirebaseManager.addSong (FirebaseManager.mk true)
            { docs := [], nextId := 3, serverNow := 11, failingWrites := [], writeCount := 7 }
            { artistName := "a", songName := "s", youtubeLink := "", state := "Aprobado",
              type := "Lento", comments := "", id := "client-id" }
          = ({ docs := [("3",
                { fields := { artistName := "a", songName := "s", youtubeLink := "",
                              state := "Aprobado", type := "Lento", comments := "" },
                  createdAt := 11, updatedAt := 11 })],
               nextId := 4, serverNow := 11, failingWrites := [], writeCount := 8 },
             .ok { artistName := "a", songName := "s", youtubeLink := "",
                   state := "Aprobado", type := "Lento", comments := "", id := "3" }) := by
  refine ⟨rfl, by decide, ?_⟩
  exact (addSong_spec (FirebaseManager.mk true)
    { docs := [], nextId := 3, serverNow := 11, failingWrites := [], writeCount := 7 }
    { artistName := "a", songName := "s", youtubeLink := "", state := "Aprobado",
      type := "Lento", comments := "", id := "client-id" } rfl (by decide)).1

/-- C3: while the readiness flag is unset, every adapter operation — list,
create, update, delete, and the migration routine — rejects with the
store-unavailable error and leaves the remote store untouched. -/
theorem uninitialized_rejects (m : FirebaseManager) (st : Firestore)
    (hinit : m.isInitialized = false) :
    (∀ song : Song, FirebaseManager.addSong m st song = (st, .error .storeUnavailable))
      ∧ FirebaseManager.loadSongs m st = (st, .error .storeUnavailable)
      ∧ (∀ (songId : String) (fields : SongFields),
          FirebaseManager.updateSong m st songId fields = (st, .error .storeUnavailable))
      ∧ (∀ songId : String,
          FirebaseManager.deleteSong m st songId = (st, .error .storeUnavailable))
      ∧ (∀ localSongs : List Song,
          FirebaseManager.migrateFromLocalStorage m st localSongs
            = (st, .error .storeUnavailable)) := by
  refine ⟨fun song => ?_, ?_, fun songId fields => ?_, fun songId => ?_, fun localSongs => ?_⟩
  · unfold FirebaseManager.addSong; rw [hinit]; rfl
  · unfold FirebaseManager.loadSongs; rw [hinit]; rfl
  · unfold FirebaseManager.updateSong; rw [hinit]; rfl
  · unfold FirebaseManager.deleteSong; rw [hinit]; rfl
  · unfold FirebaseManager.migrateFromLocalStorage; rw [hinit]; rfl

/-- Witness for C3 on a concrete uninitialized adapter and store. -/
theorem uninitialized_rejects_witness :
    (FirebaseManager.mk false).isInitialized = false
      ∧ FirebaseManager.addSong (FirebaseManager.mk false)
            { docs := [], nextId := 0, serverNow := 0, failingWrites := [], writeCount := 0 }
            { artistName := "a", songName := "s", youtubeLink := "", state := "Listo",
              type := "Movido", comments := "", id := "x" }
          = ({ docs := [], nextId := 0, serverNow := 0, failingWrites := [], writeCount := 0 },
             .error .storeUnavailable) := by
  refine ⟨rfl, ?_⟩
  exact (uninitialized_rejects (FirebaseManager.mk false)
    { docs := [], nextId := 0, serverNow := 0, failingWrites := [], writeCount := 0 } rfl).1
    { artistName := "a", songName := "s", youtubeLink := "", state := "Listo",
      type := "Movido", comments := "", id := "x" }

namespace CSVImporter

/-- The duplicate test of `handleFileImport` (part_004 lines 136–139): an
existing record and an imported candidate collide when both the artist name
and the song name agree case-insensitively. -/
def isDuplicateOf (existingSong importedSong : Song) : Bool :=
  jsToLower existingSong.artistName == jsToLower importedSong.artistName
    && jsToLower existingSong.songName == jsToLower importedSong.songName

/-- The dedup filter of `handleFileImport` (part_004 lines 135–140): keep the
candidates that collide with no record of the existing catalog. -/
def filterDuplicates (importedSongs existingSongs : List Song) : List Song :=
  importedSongs.filter fun importedSong =>
    !(existingSongs.any fun existingSong => isDuplicateOf existingSong importedSong)

end CSVImporter

/-- The C5 claim's keep-predicate, phrased from the spec: a candidate is kept
when its (artistName, songName) pair, compared case-insensitively, matches no
record in the existing catalog. -/
def keepClaim (existingSongs : List Song) (candidate : Song) : Bool :=
  decide (∀ e ∈ existingSongs,
    ¬(jsToLower e.artistName = jsToLower candidate.artistName
        ∧ jsToLower e.songName = jsToLower candidate.songName))

theorem filterDuplicates_pointwise (existingSongs : List Song) (candidate : Song) :
    (!(existingSongs.any fun e => CSVImporter.isDuplicateOf e candidate))
      = keepClaim existingSongs candidate := by
  rw [Bool.eq_iff_iff]
  simp [keepClaim, CSVImporter.isDuplicateOf]

/-- C5: `filterDuplicates` returns exactly the subsequence of candidates
whose case-insensitive (artistName, songName) pair matches no record of the
existing catalog, and candidates are not deduplicated against each other:
two identical candidates absent from the catalog are both retained. -/
theorem filterDuplicates_spec (importedSongs existingSongs : List Song) :
    CSVImporter.filterDuplicates importedSongs existingSongs
        = importedSongs.filter (keepClaim existingSongs)
      ∧ (CSVImporter.filterDuplicates importedSongs existingSongs).Sublist importedSongs
      ∧ ∀ c : Song, keepClaim existingSongs c = true →
          CSVImporter.filterDuplicates [c, c] existingSongs = [c, c] := by
  refine ⟨?_, ?_, ?_⟩
  · exact List.filter_congr fun c _ => filterDuplicates_pointwise existingSongs c
  · exact List.filter_sublist importedSongs
  · intro c hc
    have hp : (!(existingSongs.any fun e => CSVImporter.isDuplicateOf e c)) = true := by
      rw [filterDuplicates_pointwise]; exact hc
    simp [CSVImporter.filterDuplicates, List.filter, hp]

/-- Witness for C5: the catalog record (artist "Abc", song "Xyz") excludes
the candidate (artist "abc", song "xyz"), and a candidate absent from the
catalog is retained twice within one batch. -/
theorem filterDuplicates_spec_witness :
    CSVImporter.filterDuplicates
        [{ artistName := "abc", songName := "xyz", youtubeLink := "", state := "Listo",
           type := "Lento", comments := "", id := "c1" }]
        [{ artistName := "Abc", songName := "Xyz", youtubeLink := "", state := "Listo",
           type := "Lento", comments := "", id := "e1" }]
      = []
    ∧ CSVImporter.filterDuplicates
        [{ artistName := "new", songName := "n", youtubeLink := "", state := "Listo",
           type := "Lento", comments := "", id := "c2" },
         { artistName := "new", songName := "n", youtubeLink := "", state := "Listo",
           type := "Lento", comments := "", id := "c2" }]
        [{ artistName := "Abc", songName := "Xyz", youtubeLink := "", state := "Listo",
           type := "Lento", comments := "", id := "e1" }]
      = [{ artistName := "new", songName := "n", youtubeLink := "", state := "Listo",
           type := "Lento", comments := "", id := "c2" },
         { artistName := "new", songName := "n", youtubeLink := "", state := "Listo",
           type := "Lento", comments := "", id := "c2" }] := by
  constructor
  · have h := (filterDuplicates_spec
      [{ artistName := "abc", songName := "xyz", youtubeLink := "", state := "Listo",
         type := "Lento", comments := "", id := "c1" }]
      [{ artistName := "Abc", songName := "Xyz", youtubeLink := "", state := "Listo",
         type := "Lento", comments := "", id := "e1" }]).1
    rw [h]
    decide
  · exact (filterDuplicates_spec [] _).2.2
      { artistName := "new", songName := "n", youtubeLink := "", state := "Listo",
        type := "Lento", comments := "", id := "c2" }
      (by decide)

/-- The orchestrator's mirror: `songs` and the derived `filteredSongs` view
held on `SongManager` (part_003 lines 13–14). -/
structure SongManagerState where
  songs : List Song
  filteredSongs : List Song
deriving DecidableEq, Repr

namespace CSVImporter

/-- The sequential create loop of `handleFileImport` (part_004 lines
154–163): one `addSong` in flight at a time; a successful create is pushed
onto the mirror, a per-item error is caught (logged) and the loop continues
with the remaining items. -/
def importLoop (m : FirebaseManager) :
    List Song → Firestore → List Song → Firestore × List Song
  | [], st, acc => (st, acc)
  | song :: rest, st, acc =>
    match FirebaseManager.addSong m st song with
    | (st', .ok addedSong) => importLoop m rest st' (acc ++ [addedSong])
    | (st', .error _) => importLoop m rest st' acc

/-- The records successfully created by the sequential loop, in completion
order. -/
def importSuccesses (m : FirebaseManager) : List Song → Firestore → List Song
  | [], _ => []
  | song :: rest, st =>
    match FirebaseManager.addSong m st song with
    | (st', .ok addedSong) => addedSong :: importSuccesses m rest st'
    | (st', .error _) => importSuccesses m rest st'

/-- Outcome of an accepted bulk import: the final store, the final mirror,
and the figures surfaced to the user. -/
structure ImportOutcome where
  store : Firestore
  mgr : SongManagerState
  totalParsed : Nat
  newCount : Nat
  skippedCount : Nat
  reportedInserted : Nat
deriving DecidableEq, Repr

/-- `CSVImporter.handleFileImport` after a successful parse and a confirmed
dialog (part_004 lines 134–166): dedup against the mirror, run the
sequential create loop, set `filteredSongs = songs`, and report
`importedSongs.length` parsed, the dedup complement skipped, and
`newSongs.length` in the closing `Se importaron …` alert. -/
def handleFileImport (m : FirebaseManager) (st : Firestore) (mgr : SongManagerState)
    (importedSongs : List Song) : ImportOutcome :=
  let newSongs := filterDuplicates importedSongs mgr.songs
  let (st', songs') := importLoop m newSongs st mgr.songs
  { store := st'
    mgr := { songs := songs', filteredSongs := songs' }
    totalParsed := importedSongs.length
    newCount := newSongs.length
    skippedCount := importedSongs.length - newSongs.length
    reportedInserted := newSongs.length }

end CSVImporter

theorem importLoop_eq (m : FirebaseManager) (candidates : List Song) (st : Firestore)
    (acc : List Song) :
    CSVImporter.importLoop m candidates st acc
      = ((CSVImporter.importLoop m candidates st []).1,
         acc ++ CSVImporter.importSuccesses m candidates st) := by
  induction candidates generalizing st acc with
  | nil => simp [CSVImporter.importLoop, CSVImporter.importSuccesses]
  | cons song rest ih =>
    rcases h : FirebaseManager.addSong m st song with ⟨st', r⟩
    cases r with
    | ok addedSong =>
      simp only [CSVImporter.importLoop, CSVImporter.importSuccesses, h, List.nil_append]
      rw [ih st' (acc ++ [addedSong]), ih st' [addedSong]]
      simp
    | error e =>
      simp only [CSVImporter.importLoop, CSVImporter.importSuccesses, h]
      rw [ih st' acc]

/-- C4 (amended): for every accepted candidate list, the create calls run
sequentially and a per-item failure does not abort the rest — the mirror
`songs` ends up holding exactly the previous mirror followed by the
successfully created records in completion order, and `filteredSongs` is set
to `songs`. The orchestrator reports the total parsed count and the
duplicates-skipped count, but the closing "imported successfully" figure is
the accepted-candidate count `newSongs.length`, not the count of successful
creates. -/
theorem handleFileImport_spec (m : FirebaseManager) (st : Firestore)
    (mgr : SongManagerState) (importedSongs : List Song) :
    (CSVImporter.handleFileImport m st mgr importedSongs).mgr.songs
        = mgr.songs
            ++ CSVImporter.importSuccesses m
                (CSVImporter.filterDuplicates importedSongs mgr.songs) st
      ∧ (CSVImporter.handleFileImport m st mgr importedSongs).mgr.filteredSongs
          = (CSVImporter.handleFileImport m st mgr importedSongs).mgr.songs
      ∧ (CSVImporter.handleFileImport m st mgr importedSongs).totalParsed
          = importedSongs.length
      ∧ (CSVImporter.handleFileImport m st mgr importedSongs).skippedCount
          = importedSongs.length
              - (CSVImporter.filterDuplicates importedSongs mgr.songs).length
      ∧ (CSVImporter.handleFileImport m st mgr importedSongs).reportedInserted
          = (CSVImporter.filterDuplicates importedSongs mgr.songs).length := by
  have h := importLoop_eq m (CSVImporter.filterDuplicates importedSongs mgr.songs) st mgr.songs
  simp only [CSVImporter.handleFileImport]
  rw [h]
  simp

/-- Witness for C4 instantiating the spec's scenario: three accepted
candidates with the second create failing on transport; the mirror gains
exactly the first and third records (in completion order) and the report
still counts three. -/
theorem handleFileImport_spec_witness :
    (FirebaseManager.mk true).isInitialized = true
      ∧ (CSVImporter.handleFileImport (FirebaseManager.mk true)
            { docs := [], nextId := 0, serverNow := 5, failingWrites := [1], writeCount := 0 }
            { songs := [], filteredSongs := [] }
            [{ artistName := "a1", songName := "s1", youtubeLink := "", state := "Listo",
               type := "Lento", comments := "", id := "i1" },
             { artistName := "a2", songName := "s2", youtubeLink := "", state := "Listo",
               type := "Lento", comments := "", id := "i2" },
             { artistName := "a3", songName := "s3", youtubeLink := "", state := "Listo",
               type := "Lento", comments := "", id := "i3" }]).mgr.songs
          = [{ artistName := "a1", songName := "s1", youtubeLink := "", state := "Listo",
               type := "Lento", comments := "", id := "0" },
             { artistName := "a3", songName := "s3", youtubeLink := "", state := "Listo",
               type := "Lento", comments := "", id := "1" }] := by
  constructor
  · rfl
  · rw [(handleFileImport_spec (FirebaseManager.mk true)
      { docs := [], nextId := 0, serverNow := 5, failingWrites := [1], writeCount := 0 }
      { songs := [], filteredSongs := [] }
      [{ artistName := "a1", songName := "s1", youtubeLink := "", state := "Listo",
         type := "Lento", comments := "", id := "i1" },
       { artistName := "a2", songName := "s2", youtubeLink := "", state := "Listo",
         type := "Lento", comments := "", id := "i2" },
       { artistName := "a3", songName := "s3", youtubeLink := "", state := "Listo",
         type := "Lento", comments := "", id := "i3" }]).1]
    decide

/-- C4 counterexample to the claim as stated: in the three-candidate run
whose second create fails with a transport error, only two records are
inserted into the mirror, yet the reported "imported successfully" count is
3 — the orchestrator does not report 2 successes and 1 failure. -/
theorem handleFileImport_report_counterexample :
    (CSVImporter.handleFileImport (FirebaseManager.mk true)
          { docs := [], nextId := 0, serverNow := 5, failingWrites := [1], writeCount := 0 }
          { songs := [], filteredSongs := [] }
          [{ artistName := "a1", songName := "s1", youtubeLink := "", state := "Listo",
             type := "Lento", comments := "", id := "i1" },
           { artistName := "a2", songName := "s2", youtubeLink := "", state := "Listo",
             type := "Lento", comments := "", id := "i2" },
           { artistName := "a3", songName := "s3", youtubeLink := "", state := "Listo",
             type := "Lento", comments := "", id := "i3" }]).mgr.songs.length
        = 2
      ∧ (CSVImporter.handleFileImport (FirebaseManager.mk true)
          { docs := [], nextId := 0, serverNow := 5, failingWrites := [1], writeCount := 0 }
          { songs := [], filteredSongs := [] }
          [{ artistName := "a1", songName := "s1", youtubeLink := "", state := "Listo",
             type := "Lento", comments := "", id := "i1" },
           { artistName := "a2", songName := "s2", youtubeLink := "", state := "Listo",
             type := "Lento", comments := "", id := "i2" },
           { artistName := "a3", songName := "s3", youtubeLink := "", state := "Listo",
             type := "Lento", comments := "", id := "i3" }]).reportedInserted
        ≠ 2 := by
  constructor
  · decide
  · decide

namespace FirebaseManager

/-- The documents actually persisted by the migration loop, in completion
order: one per legacy record whose write did not fail on transport. -/
def migrateSuccesses (st : Firestore) : List Song → List StoredDoc
  | [] => []
  | song :: rest =>
    let songData : StoredDoc :=
      { fields := song.toSongFields, createdAt := st.serverNow, updatedAt := st.serverNow }
    if st.writeCount ∈ st.failingWrites then migrateSuccesses (fsAdd st songData).1 rest
    else songData :: migrateSuccesses (fsAdd st songData).1 rest

end FirebaseManager

theorem migrateLoop_docs (localSongs : List Song) (st : Firestore) :
    (FirebaseManager.migrateLoop st localSongs).docs.map Prod.snd
      = st.docs.map Prod.snd ++ FirebaseManager.migrateSuccesses st localSongs := by
  induction localSongs generalizing st with
  | nil => simp [FirebaseManager.migrateLoop, FirebaseManager.migrateSuccesses]
  | cons song rest ih =>
    by_cases h : st.writeCount ∈ st.failingWrites
    · simp only [FirebaseManager.migrateLoop, FirebaseManager.migrateSuccesses, fsAdd,
        if_pos h]
      rw [ih]
    · simp only [FirebaseManager.migrateLoop, FirebaseManager.migrateSuccesses, fsAdd,
        if_neg h]
      rw [ih]
      simp

theorem migrateLoop_id_independent (localSongs : List Song) (st : Firestore)
    (g : String → String) :
    FirebaseManager.migrateLoop st (localSongs.map fun s => { s with id := g s.id })
      = FirebaseManager.migrateLoop st localSongs := by
  induction localSongs generalizing st with
  | nil => rfl
  | cons song rest ih =>
    simp only [List.map_cons, FirebaseManager.migrateLoop]
    exact ih _

theorem migrateSuccesses_all_ok (localSongs : List Song) (st : Firestore)
    (h : st.failingWrites = []) :
    FirebaseManager.migrateSuccesses st localSongs
      = localSongs.map fun s =>
          { fields := s.toSongFields, createdAt := st.serverNow,
            updatedAt := st.serverNow } := by
  induction localSongs generalizing st with
  | nil => rfl
  | cons song rest ih =>
    have hmem : st.writeCount ∉ st.failingWrites := by rw [h]; simp
    simp only [FirebaseManager.migrateSuccesses, if_neg hmem, List.map_cons]
    refine congrArg _ ?_
    rw [ih]
    · simp [fsAdd, if_neg hmem]
    · simp [fsAdd, if_neg hmem, h]

/-- C8: on a ready adapter, the Migration Guard is a no-op on an empty legacy
list; it skips entirely whenever the remote store already holds at least as
many records as the legacy list (even when those records are different
ones); otherwise it runs the migration loop over every legacy record, which
persists (in order) one timestamped document per legacy record whose write
did not fail — ignoring the legacy local ids entirely — and tolerates
individual transport failures without aborting. -/
theorem migrateFromLocalStorage_spec (m : FirebaseManager) (st : Firestore)
    (localSongs : List Song) (hinit : m.isInitialized = true) :
    (localSongs = [] →
        FirebaseManager.migrateFromLocalStorage m st localSongs = (st, .ok ()))
      ∧ (localSongs.length ≤ st.docs.length →
          FirebaseManager.migrateFromLocalStorage m st localSongs = (st, .ok ()))
      ∧ (st.docs.length < localSongs.length →
          FirebaseManager.migrateFromLocalStorage m st localSongs
              = (FirebaseManager.migrateLoop st localSongs, .ok ())
            ∧ (FirebaseManager.migrateLoop st localSongs).docs.map Prod.snd
                = st.docs.map Prod.snd ++ FirebaseManager.migrateSuccesses st localSongs
            ∧ (∀ g : String → String,
                FirebaseManager.migrateLoop st
                    (localSongs.map fun s => { s with id := g s.id })
                  = FirebaseManager.migrateLoop st localSongs)
            ∧ (st.failingWrites = [] →
                FirebaseManager.migrateSuccesses st localSongs
                  = localSongs.map fun s =>
                      { fields := s.toSongFields, createdAt := st.serverNow,
                        updatedAt := st.serverNow })) := by
  refine ⟨?_, ?_, ?_⟩
  · intro h
    subst h
    unfold FirebaseManager.migrateFromLocalStorage
    rw [hinit]
    rfl
  · intro hle
    unfold FirebaseManager.migrateFromLocalStorage
    rw [hinit]
    rcases Nat.eq_zero_or_pos localSongs.length with hz | hp
    · simp [hz]
    · have h1 : ¬localSongs.length = 0 := by omega
      have h2 : ¬st.docs.length < localSongs.length := by omega
      simp [h1, h2]
  · intro hlt
    have h1 : ¬localSongs.length = 0 := by omega
    refine ⟨?_, migrateLoop_docs localSongs st,
      fun g => migrateLoop_id_independent localSongs st g,
      migrateSuccesses_all_ok localSongs st⟩
    unfold FirebaseManager.migrateFromLocalStorage
    rw [hinit]
    simp [h1, hlt]


/-- A five-record legacy local list, used to exercise the migration
heuristic. -/
def legacyFive : List Song :=
  [{ artistName := "l1", songName := "s", youtubeLink := "", state := "Listo",
     type := "Lento", comments := "", id := "a" },
   { artistName := "l2", songName := "s", youtubeLink := "", state := "Listo",
     type := "Lento", comments := "", id := "b" },
   { artistName := "l3", songName := "s", youtubeLink := "", state := "Listo",
     type := "Lento", comments := "", id := "c" },
   { artistName := "l4", songName := "s", youtubeLink := "", state := "Listo",
     type := "Lento", comments := "", id := "d" },
   { artistName := "l5", songName := "s", youtubeLink := "", state := "Listo",
     type := "Lento", comments := "", id := "e" }]

/-- One remote document with the given artist marker, unrelated to any
record of `legacyFive`. -/
def remoteDoc (a : String) (t : Nat) : String × StoredDoc :=
  (a, { fields := { artistName := a, songName := "t", youtubeLink := "",
                    state := "Listo", type := "Movido", comments := "" },
        createdAt := t, updatedAt := t })

/-- A remote store already holding five documents, none of which matches a
`legacyFive` record. -/
def remoteFive : Firestore :=
  { docs := [remoteDoc "r1" 1, remoteDoc "r2" 2, remoteDoc "r3" 3,
             remoteDoc "r4" 4, remoteDoc "r5" 5],
    nextId := 9, serverNow := 9, failingWrites := [], writeCount := 0 }

/-- Witness for C8 at the spec's scenario: a legacy list of 5 records and a
remote store already holding 5 different records — migration is skipped
entirely. -/
theorem migrateFromLocalStorage_spec_witness :
    (FirebaseManager.mk true).isInitialized = true
      ∧ legacyFive.length ≤ remoteFive.docs.length
      ∧ FirebaseManager.migrateFromLocalStorage (FirebaseManager.mk true) remoteFive
          legacyFive = (remoteFive, .ok ()) := by
  refine ⟨rfl, by decide, ?_⟩
  exact (migrateFromLocalStorage_spec (FirebaseManager.mk true) remoteFive
    legacyFive rfl).2.1 (by decide)

namespace SongManager

/-- The localStorage step of `loadInitialData` (part_003 lines 41–44): the
legacy `'songs'` slot is read (`getItem('songs') || '[]'`, parsed) and, when
the parsed list is non-empty, the slot is removed. `none` models an absent
key. -/
def clearLegacyLocal (localValue : Option (List Song)) : Option (List Song) :=
  if (localValue.getD []).length > 0 then none else localValue

/-- The storage-and-migration prefix of `SongManager.loadInitialData`
(part_003 lines 35–47): clear the legacy slot when non-empty, then invoke the
Migration Guard, which re-reads the slot (`getItem('songs') || '[]'`).
Returns the final slot value and the guard's result. -/
def loadInitialDataMigration (m : FirebaseManager) (st : Firestore)
    (localValue : Option (List Song)) :
    Option (List Song) × (Firestore × Except FbError Unit) :=
  let localAfter := clearLegacyLocal localValue
  (localAfter,
   FirebaseManager.migrateFromLocalStorage m st (localAfter.getD []))

end SongManager

/-- C9: in the initial-load flow, a non-empty legacy list is cleared from
local storage before the Migration Guard is invoked, so the guard always
reads an empty legacy list, performs no migration create call, and leaves
the remote store untouched. -/
theorem loadInitialData_clears_before_migration (m : FirebaseManager)
    (st : Firestore) (localValue : Option (List Song))
    (hinit : m.isInitialized = true) :
    (localValue.getD [] ≠ [] →
        (SongManager.loadInitialDataMigration m st localValue).1 = none)
      ∧ (SongManager.loadInitialDataMigration m st localValue).2 = (st, .ok ()) := by
  have hmig : ∀ ls : List Song, ls = [] →
      FirebaseManager.migrateFromLocalStorage m st ls = (st, .ok ()) := by
    intro ls h
    subst h
    unfold FirebaseManager.migrateFromLocalStorage
    rw [hinit]
    rfl
  by_cases h : (localValue.getD []).length > 0
  · have hcl : SongManager.clearLegacyLocal localValue = none := by
      unfold SongManager.clearLegacyLocal
      rw [if_pos h]
    constructor
    · intro _
      simp [SongManager.loadInitialDataMigration, hcl]
    · simp only [SongManager.loadInitialDataMigration, hcl]
      exact hmig [] rfl
  · have he : localValue.getD [] = [] := by
      rcases localValue with _ | ls
      · rfl
      · have h0 : ls.length = 0 := by simpa using h
        simpa using List.length_eq_zero.mp h0
    have hcl : SongManager.clearLegacyLocal localValue = localValue := by
      unfold SongManager.clearLegacyLocal
      rw [if_neg h]
    constructor
    · intro hne
      exact absurd he hne
    · simp only [SongManager.loadInitialDataMigration, hcl]
      exact hmig _ he

/-- Witness for C9: a concrete non-empty legacy list is cleared, and the
guard then performs nothing against a concrete store. -/
theorem loadInitialData_clears_before_migration_witness :
    (FirebaseManager.mk true).isInitialized = true
      ∧ (SongManager.loadInitialDataMigration (FirebaseManager.mk true) remoteFive
          (some legacyFive)).1 = none
      ∧ (SongManager.loadInitialDataMigration (FirebaseManager.mk true) remoteFive
          (some legacyFive)).2 = (remoteFive, .ok ()) := by
  refine ⟨rfl, ?_, ?_⟩
  · exact (loadInitialData_clears_before_migration (FirebaseManager.mk true) remoteFive
      (some legacyFive) rfl).1 (by decide)
  · exact (loadInitialData_clears_before_migration (FirebaseManager.mk true) remoteFive
      (some legacyFive) rfl).2

namespace SongManager

/-- The `findIndex`-then-assign idiom the orchestrator uses on `songs` and
`filteredSongs` (part_003 lines 284–291 and 212–213): replace the first
record carrying `songId`, leaving the list unchanged when the id is absent
(`filteredIndex !== -1`). -/
def patchById (songId : String) (updatedSong : Song) (l : List Song) : List Song :=
  match l.findIdx? (fun s => s.id == songId) with
  | some i => l.set i updatedSong
  | none => l

/-- The add branch of `handleSubmit` (part_003 lines 216–223) after the
adapter acknowledged the create: push the returned record and recompute the
filtered view via `applyFilters` under the current query. -/
def handleSubmitAdd (mgr : SongManagerState) (newSong : Song) (searchText : String)
    (types states : List String) : SongManagerState :=
  { songs := mgr.songs ++ [newSong],
    filteredSongs :=
      FilterManager.applyFilters (mgr.songs ++ [newSong]) searchText types states }

/-- The edit branch of `handleSubmit` (part_003 lines 209–214, 223) after the
adapter acknowledged the update: overwrite the record at the edited id with
the form data and recompute the filtered view. -/
def handleSubmitEdit (mgr : SongManagerState) (editId : String) (formData : SongFields)
    (searchText : String) (types states : List String) : SongManagerState :=
  { songs := patchById editId { toSongFields := formData, id := editId } mgr.songs,
    filteredSongs :=
      FilterManager.applyFilters
        (patchById editId { toSongFields := formData, id := editId } mgr.songs)
        searchText types states }

/-- `confirmDelete` (part_003 lines 240–244) after the adapter acknowledged
the delete: drop the record and recompute the filtered view. -/
def confirmDelete (mgr : SongManagerState) (songId : String) (searchText : String)
    (types states : List String) : SongManagerState :=
  { songs := mgr.songs.filter fun s => !(s.id == songId),
    filteredSongs :=
      FilterManager.applyFilters (mgr.songs.filter fun s => !(s.id == songId))
        searchText types states }

/-- `updateComment` (part_003 lines 271–291) after the adapter acknowledged
the update: when the id is found in `songs`, the record with the new comment
text replaces the old one in `songs` — and `filteredSongs` is patched in
place at its own index of that id, not recomputed through the filter. -/
def updateComment (mgr : SongManagerState) (songId comment : String) :
    SongManagerState :=
  match mgr.songs.find? (fun s => s.id == songId) with
  | none => mgr
  | some song =>
    { songs := patchById songId { song with comments := comment } mgr.songs,
      filteredSongs := patchById songId { song with comments := comment } mgr.filteredSongs }

end SongManager

/-- Replacing-by-id as a pointwise map, used to compare the two patched
lists. -/
def idPatch (songId : String) (updatedSong : Song) (s : Song) : Song :=
  if s.id == songId then updatedSong else s

theorem patchById_eq_map (songId : String) (v : Song) (l : List Song)
    (h : (l.map Song.id).Nodup) :
    SongManager.patchById songId v l = l.map (idPatch songId v) := by
  induction l with
  | nil => rfl
  | cons s t ih =>
    simp only [List.map_cons, List.nodup_cons] at h
    cases hsb : (s.id == songId) with
    | true =>
      have hid : songId = s.id := by
        have h2 : s.id = songId := beq_iff_eq.mp hsb
        rw [h2]
      have h1 : SongManager.patchById songId v (s :: t) = v :: t := by
        unfold SongManager.patchById
        simp [List.findIdx?_cons, hsb]
      have htail : ∀ x ∈ t, idPatch songId v x = x := by
        intro x hx
        have hxid : (x.id == songId) = false := by
          rcases hb : (x.id == songId) with _ | _
          · rfl
          · exfalso
            have hx2 : x.id = s.id := by
              rw [beq_iff_eq.mp hb, hid]
            exact h.1 (by rw [← hx2]; exact List.mem_map_of_mem Song.id hx)
        simp [idPatch, hxid]
      rw [h1, List.map_cons, List.map_congr_left htail]
      simp [idPatch, hsb]
    | false =>
      have h1 : SongManager.patchById songId v (s :: t)
          = s :: SongManager.patchById songId v t := by
        unfold SongManager.patchById
        simp only [List.findIdx?_cons, hsb, Bool.false_eq_true, if_false,
          List.findIdx?_succ]
        cases hft : t.findIdx? (fun x => x.id == songId) with
        | none => simp
        | some i => simp [List.set]
      rw [h1, ih h.2, List.map_cons]
      simp [idPatch, hsb]

theorem patchById_sublist (songId : String) (v : Song) (fs l : List Song)
    (hsub : fs.Sublist l) (h : (l.map Song.id).Nodup) :
    (SongManager.patchById songId v fs).Sublist (SongManager.patchById songId v l) := by
  have hfs : (fs.map Song.id).Nodup := List.Nodup.sublist (hsub.map Song.id) h
  rw [patchById_eq_map _ _ _ hfs, patchById_eq_map _ _ _ h]
  exact hsub.map _

/-- A catalog record whose comment text is what the active search filter
matches on. -/
def commentedSong : Song :=
  { artistName := "a", songName := "b", youtubeLink := "", state := "Listo",
    type := "Lento", comments := "hello", id := "1" }

/-- C7 counterexample: starting from a mirror whose filtered view is exactly
the recomputation under the query "hello", editing the matching song's
comment to "bye" leaves the song inside `filteredSongs` (the view is patched
in place, part_003 lines 288–291) even though recomputing the filter over
the updated `songs` now excludes it — `filteredSongs` is directly mutated
and is no longer derived from the current filter predicate. -/
theorem updateComment_stale_filter :
    ({ songs := [commentedSong], filteredSongs := [commentedSong] }
        : SongManagerState).filteredSongs
        = FilterManager.applyFilters [commentedSong] "hello" [] []
      ∧ (SongManager.updateComment
            { songs := [commentedSong], filteredSongs := [commentedSong] }
            "1" "bye").filteredSongs
          ≠ FilterManager.applyFilters
              (SongManager.updateComment
                { songs := [commentedSong], filteredSongs := [commentedSong] }
                "1" "bye").songs
              "hello" [] [] := by
  constructor
  · decide
  · decide

/-- C7 (amended): after the add, form-edit, and delete flows the filtered
view is recomputed through `applyFilters` over the updated mirror (and is
hence a sublist of it); the comment-edit flow instead patches
`filteredSongs` in place and the bulk-import flow assigns
`filteredSongs = songs` — under unique mirror ids and a filtered view that
is a sub-sequence of the mirror, both direct updates keep `filteredSongs` a
sublist of `songs`, but neither recomputes it through the filter. -/
theorem filteredSongs_discipline (mgr : SongManagerState) (searchText : String)
    (types states : List String) (newSong : Song) (editId songId comment : String)
    (formData : SongFields) (m : FirebaseManager) (st : Firestore)
    (importedSongs : List Song) :
    ((SongManager.handleSubmitAdd mgr newSong searchText types states).filteredSongs
        = FilterManager.applyFilters
            (SongManager.handleSubmitAdd mgr newSong searchText types states).songs
            searchText types states
      ∧ (SongManager.handleSubmitAdd mgr newSong searchText types
            states).filteredSongs.Sublist
          (SongManager.handleSubmitAdd mgr newSong searchText types states).songs)
    ∧ ((SongManager.handleSubmitEdit mgr editId formData searchText types
            states).filteredSongs
        = FilterManager.applyFilters
            (SongManager.handleSubmitEdit mgr editId formData searchText types
              states).songs
            searchText types states
      ∧ (SongManager.handleSubmitEdit mgr editId formData searchText types
            states).filteredSongs.Sublist
          (SongManager.handleSubmitEdit mgr editId formData searchText types
            states).songs)
    ∧ ((SongManager.confirmDelete mgr songId searchText types states).filteredSongs
        = FilterManager.applyFilters
            (SongManager.confirmDelete mgr songId searchText types states).songs
            searchText types states
      ∧ (SongManager.confirmDelete mgr songId searchText types
            states).filteredSongs.Sublist
          (SongManager.confirmDelete mgr songId searchText types states).songs)
    ∧ ((mgr.songs.map Song.id).Nodup → mgr.filteredSongs.Sublist mgr.songs →
        (SongManager.updateComment mgr songId comment).filteredSongs.Sublist
          (SongManager.updateComment mgr songId comment).songs)
    ∧ ((CSVImporter.handleFileImport m st mgr importedSongs).mgr.filteredSongs
          = (CSVImporter.handleFileImport m st mgr importedSongs).mgr.songs
      ∧ (CSVImporter.handleFileImport m st mgr
            importedSongs).mgr.filteredSongs.Sublist
          (CSVImporter.handleFileImport m st mgr importedSongs).mgr.songs) := by
  refine ⟨⟨rfl, ?_⟩, ⟨rfl, ?_⟩, ⟨rfl, ?_⟩, ?_, ?_⟩
  · exact List.filter_sublist _
  · exact List.filter_sublist _
  · exact List.filter_sublist _
  · intro hnodup hsub
    unfold SongManager.updateComment
    cases hf : mgr.songs.find? (fun s => s.id == songId) with
    | none => exact hsub
    | some song => exact patchById_sublist _ _ _ _ hsub hnodup
  · have h := importLoop_eq m (CSVImporter.filterDuplicates importedSongs mgr.songs)
      st mgr.songs
    constructor
    · simp only [CSVImporter.handleFileImport]
    · simp only [CSVImporter.handleFileImport]
      rw [h]

/-- Witness for C7 at a concrete mirror with unique ids: the comment edit
keeps the patched filtered view a sub-sequence of the mirror. -/
theorem filteredSongs_discipline_witness :
    ([commentedSong].map Song.id).Nodup
      ∧ ([commentedSong] : List Song).Sublist [commentedSong]
      ∧ (SongManager.updateComment
            { songs := [commentedSong], filteredSongs := [commentedSong] }
            "1" "bye").filteredSongs.Sublist
          (SongManager.updateComment
            { songs := [commentedSong], filteredSongs := [commentedSong] }
            "1" "bye").songs := by
  refine ⟨by decide, List.Sublist.refl _, ?_⟩
  exact (filteredSongs_discipline
    { songs := [commentedSong], filteredSongs := [commentedSong] }
    "hello" [] [] commentedSong "1" "1" "bye" commentedSong.toSongFields
    (FirebaseManager.mk true)
    { docs := [], nextId := 0, serverNow := 0, failingWrites := [], writeCount := 0 }
    []).2.2.2.1 (by decide) (List.Sublist.refl _)

namespace CSVImporter

/-- One step of the character loop of `parseCSVLine` (part_004 lines 56–67),
acting on (result so far, current field, in-quotes flag): a double quote only
toggles the in-quotes flag and is never appended; a comma outside quotes
closes the current field; any other character is appended to the current
field. -/
def csvLineStep (acc : List (List Char) × List Char × Bool) (c : Char) :
    List (List Char) × List Char × Bool :=
  if c = '"' then (acc.1, acc.2.1, !acc.2.2)
  else if c = ',' ∧ acc.2.2 = false then (acc.1 ++ [acc.2.1], [], acc.2.2)
  else (acc.1, acc.2.1 ++ [c], acc.2.2)

/-- `CSVImporter.parseCSVLine` (part_004 lines 51–71): run the character loop
over the line and push the final current field. -/
def parseCSVLine (line : String) : List String :=
  match line.data.foldl csvLineStep ([], [], false) with
  | (result, current, _) => (result ++ [current]).map fun f => ⟨f⟩

end CSVImporter

theorem csvLineFold_no_quotes (cs : List Char) (res : List (List Char))
    (cur : List Char) (q : Bool)
    (hres : ∀ f ∈ res, '"' ∉ f) (hcur : '"' ∉ cur) :
    (∀ f ∈ (cs.foldl CSVImporter.csvLineStep (res, cur, q)).1, '"' ∉ f)
      ∧ '"' ∉ (cs.foldl CSVImporter.csvLineStep (res, cur, q)).2.1 := by
  induction cs generalizing res cur q with
  | nil => exact ⟨hres, hcur⟩
  | cons c cs ih =>
    rw [List.foldl_cons]
    by_cases h1 : c = '"'
    · have hstep : CSVImporter.csvLineStep (res, cur, q) c = (res, cur, !q) := by
        simp [CSVImporter.csvLineStep, h1]
      rw [hstep]
      exact ih res cur (!q) hres hcur
    · by_cases h2 : c = ',' ∧ q = false
      · have hstep : CSVImporter.csvLineStep (res, cur, q) c = (res ++ [cur], [], q) := by
          simp [CSVImporter.csvLineStep, h1, h2]
        rw [hstep]
        refine ih (res ++ [cur]) [] q ?_ (by simp)
        intro f hf
        rcases List.mem_append.mp hf with hf | hf
        · exact hres f hf
        · rw [List.mem_singleton.mp hf]
          exact hcur
      · have hstep : CSVImporter.csvLineStep (res, cur, q) c = (res, cur ++ [c], q) := by
          simp [CSVImporter.csvLineStep, h1, h2]
        rw [hstep]
        refine ih res (cur ++ [c]) q hres ?_
        intro hmem
        rcases List.mem_append.mp hmem with hm | hm
        · exact hcur hm
        · exact h1 (List.mem_singleton.mp hm).symm

/-- C10: no field returned by the CSV line parser contains a double-quote
character — quotes only toggle the in-quotes state and are never appended,
so a doubled quote in the input is not restored to a literal quote in any
output field. -/
theorem parseCSVLine_no_quotes (line : String) :
    ∀ field ∈ CSVImporter.parseCSVLine line, '"' ∉ field.data := by
  intro field hfield
  have hinv := csvLineFold_no_quotes line.data [] [] false (by simp) (by simp)
  unfold CSVImporter.parseCSVLine at hfield
  rcases hres : line.data.foldl CSVImporter.csvLineStep ([], [], false) with ⟨res, cur, q⟩
  rw [hres] at hfield hinv
  simp only [List.map_append, List.mem_append] at hfield
  rcases hfield with hf | hf
  · rcases List.mem_map.mp hf with ⟨g, hg, rfl⟩
    exact hinv.1 g hg
  · rcases List.mem_map.mp hf with ⟨g, hg, rfl⟩
    rw [List.mem_singleton.mp hg]
    exact hinv.2

/-- Witness for C10: the doubled quote in `a""b` is dropped, and the
resulting field contains no quote character. -/
theorem parseCSVLine_no_quotes_witness :
    '"' ∉ ("ab" : String).data
      ∧ CSVImporter.parseCSVLine "a\"\"b" = ["ab"] := by
  constructor
  · exact parseCSVLine_no_quotes "a\"\"b" "ab" (by decide)
  · decide

/-- Model of JS `Array.prototype.join` with a one-character separator. -/
def joinSep (sep : Char) : List String → String
  | [] => ""
  | [x] => x
  | x :: y :: rest => x ++ (⟨[sep]⟩ : String) ++ joinSep sep (y :: rest)

namespace SongManager

/-- `SongManager.escapeCSVField` (part_003 lines 453–463): a field containing
a comma, double quote, or newline is wrapped in double quotes with embedded
quotes doubled; other fields pass through. -/
def escapeCSVField (field : String) : String :=
  if field.data.contains ',' || field.data.contains '"' || field.data.contains '\n' then
    "\"" ++ (⟨field.data.flatMap fun c => if c = '"' then ['"', '"'] else [c]⟩ : String)
      ++ "\""
  else field

/-- One data row of `generateCSVContent` (part_003 lines 439–447): the six
escaped fields joined by commas. -/
def songToCSVRow (song : Song) : String :=
  joinSep ','
    [escapeCSVField song.songName, escapeCSVField song.artistName,
     escapeCSVField song.state, escapeCSVField song.type,
     escapeCSVField song.comments, escapeCSVField song.youtubeLink]

/-- `SongManager.generateCSVContent` (part_003 lines 434–451): the header row
followed by one row per song, joined by newlines. -/
def generateCSVContent (filteredSongs : List Song) : String :=
  joinSep '\n'
    ("Nombre,Artista,Estado,Tipo,Comentarios,YouTube"
      :: filteredSongs.map songToCSVRow)

end SongManager

namespace CSVImporter

/-- `CSVImporter.mapState` (part_004 lines 73–82): the identity dictionary
over the state enumeration with default `Por aprobar`. -/
def stateMap : List (String × String) :=
  [("Aprobado", "Aprobado"), ("Por aprobar", "Por aprobar"),
   ("En grabación", "En grabación"), ("Listo", "Listo"),
   ("Rechazado", "Rechazado")]

def mapState (csvState : String) : String :=
  (stateMap.lookup csvState).getD "Por aprobar"

/-- `CSVImporter.mapType` (part_004 lines 84–90): the identity dictionary
over the type enumeration with default `Lento`. -/
def typeMap : List (String × String) :=
  [("Lento", "Lento"), ("Movido", "Movido")]

def mapType (csvType : String) : String :=
  (typeMap.lookup csvType).getD "Lento"

/-- Row-to-draft construction of `parseCSV` (part_004 lines 20–43): each
consumed value is trimmed with empty fallback, and state/type go through the
dictionaries. The new layout reads name, artist, state, type, comments,
link; the legacy layout reads name, artist, (genre,) state, type. The
`Date.now()`/`Math.random()` id generation is modelled by an opaque per-row
token, which every claim ignores (the Remote Store strips client ids). -/
def rowToSong (isNewFormat : Bool) (rowId : String) (values : List String) : Song :=
  if isNewFormat then
    { artistName := jsTrim (values.getD 1 ""),
      songName := jsTrim (values.getD 0 ""),
      youtubeLink := jsTrim (values.getD 5 ""),
      state := mapState (jsTrim (values.getD 2 "")),
      type := mapType (jsTrim (values.getD 3 "")),
      comments := jsTrim (values.getD 4 ""),
      id := rowId }
  else
    { artistName := jsTrim (values.getD 1 ""),
      songName := jsTrim (values.getD 0 ""),
      youtubeLink := "",
      state := mapState (jsTrim (values.getD 3 "")),
      type := mapType (jsTrim (values.getD 4 "")),
      comments := "",
      id := rowId }

/-- The data-row loop of `parseCSV` (part_004 lines 11–46): each line is
trimmed, blank lines are skipped, rows parse through `parseCSVLine`, and
rows with fewer than 4 values are silently dropped. -/
def parseRows (isNewFormat : Bool) : Nat → List (List Char) → List Song
  | _, [] => []
  | i, lineRaw :: rest =>
    if jsTrim ⟨lineRaw⟩ == "" then parseRows isNewFormat (i + 1) rest
    else if (parseCSVLine (jsTrim ⟨lineRaw⟩)).length ≥ 4 then
      rowToSong isNewFormat (toString i) (parseCSVLine (jsTrim ⟨lineRaw⟩))
        :: parseRows isNewFormat (i + 1) rest
    else parseRows isNewFormat (i + 1) rest

/-- `CSVImporter.parseCSV` (part_004 lines 6–49): split on newlines, read the
header row (fields split on commas and trimmed), detect the new layout by the
presence of the `Estado` and `Tipo` headers, then parse the data rows. -/
def parseCSV (csvText : String) : List Song :=
  match jsSplitChar '\n' csvText.data with
  | [] => []
  | headerLine :: dataLines =>
    parseRows
      (((jsSplitChar ',' headerLine).map fun h => jsTrim ⟨h⟩).contains "Estado"
        && ((jsSplitChar ',' headerLine).map fun h => jsTrim ⟨h⟩).contains "Tipo")
      1 dataLines

end CSVImporter

/-- A song whose artist name carries a leading space. -/
def spacedSong : Song :=
  { artistName := " a", songName := "b", youtubeLink := "", state := "Listo",
    type := "Lento", comments := "", id := "x" }

/-- A song whose artist name contains a double quote. -/
def quotedSong : Song :=
  { artistName := "He said \"hi\"", songName := "b", youtubeLink := "", state := "Listo",
    type := "Lento", comments := "", id := "x" }

/-- C6 counterexample: the round trip does not reproduce `artistName`
exactly for every song set — a leading space is trimmed away by the parser's
per-value `trim`, and a double quote is dropped by the quote-insensitive
line parser (the export doubles it, the parser never restores it). -/
theorem csv_roundTrip_counterexample :
    (CSVImporter.parseCSV (SongManager.generateCSVContent [spacedSong])).map
        (fun s => s.artistName)
        ≠ [spacedSong].map (fun s => s.artistName)
      ∧ (CSVImporter.parseCSV (SongManager.generateCSVContent [quotedSong])).map
          (fun s => s.artistName)
          ≠ [quotedSong].map (fun s => s.artistName) := by
  constructor
  · decide
  · decide

def ltrimChars (l : List Char) : List Char := l.dropWhile jsIsWhitespace

def rtrimChars (l : List Char) : List Char :=
  (l.reverse.dropWhile jsIsWhitespace).reverse

theorem jsTrim_eq (s : String) : jsTrim s = ⟨rtrimChars (ltrimChars s.data)⟩ := rfl

theorem stringEta (s : String) : (⟨s.data⟩ : String) = s := rfl

theorem dropWhile_idem (p : Char → Bool) (l : List Char) :
    (l.dropWhile p).dropWhile p = l.dropWhile p := by
  induction l with
  | nil => rfl
  | cons c t ih =>
    by_cases h : p c
    · simp [List.dropWhile_cons, h, ih]
    · simp [List.dropWhile_cons, h]

theorem ltrim_eq_self_of_head (l : List Char)
    (h : ∀ c t, l = c :: t → jsIsWhitespace c = false) : ltrimChars l = l := by
  cases l with
  | nil => rfl
  | cons c t => simp [ltrimChars, List.dropWhile_cons, h c t rfl]

theorem rtrim_eq_nil_iff (l : List Char) :
    rtrimChars l = [] ↔ ∀ c ∈ l, jsIsWhitespace c = true := by
  unfold rtrimChars
  rw [List.reverse_eq_nil_iff, List.dropWhile_eq_nil_iff]
  constructor
  · intro h c hc
    exact h c (List.mem_reverse.mpr hc)
  · intro h c hc
    exact h c (List.mem_reverse.mp hc)

theorem rtrim_cons_of_not_ws (c : Char) (t : List Char)
    (hc : jsIsWhitespace c = false) :
    rtrimChars (c :: t) = c :: rtrimChars t := by
  unfold rtrimChars
  rw [List.reverse_cons, List.dropWhile_append]
  by_cases h : (t.reverse.dropWhile jsIsWhitespace).isEmpty
  · have he : t.reverse.dropWhile jsIsWhitespace = [] := by simpa using h
    rw [if_pos h, he]
    simp [List.dropWhile_cons, hc]
  · rw [if_neg h]
    simp

theorem rtrim_cons_of_rtrim_ne_nil (c : Char) (t : List Char)
    (h : rtrimChars t ≠ []) : rtrimChars (c :: t) = c :: rtrimChars t := by
  have hd : ¬(t.reverse.dropWhile jsIsWhitespace).isEmpty := by
    simp only [List.isEmpty_iff]
    intro hnil
    exact h (by unfold rtrimChars; rw [hnil]; rfl)
  unfold rtrimChars
  rw [List.reverse_cons, List.dropWhile_append, if_neg hd]
  simp

theorem ltrim_rtrim_comm (l : List Char) :
    ltrimChars (rtrimChars l) = rtrimChars (ltrimChars l) := by
  induction l with
  | nil => rfl
  | cons c t ih =>
    by_cases hc : jsIsWhitespace c = true
    · have hl : ltrimChars (c :: t) = ltrimChars t := by
        simp [ltrimChars, List.dropWhile_cons, hc]
      rw [hl]
      by_cases hrt : rtrimChars t = []
      · have hall : ∀ x ∈ t, jsIsWhitespace x = true := (rtrim_eq_nil_iff t).mp hrt
        have hct : rtrimChars (c :: t) = [] := by
          rw [rtrim_eq_nil_iff]
          intro x hx
          rcases List.mem_cons.mp hx with rfl | hx
          · exact hc
          · exact hall x hx
        have hlt : ltrimChars t = [] := by
          unfold ltrimChars
          rw [List.dropWhile_eq_nil_iff]
          exact hall
        rw [hct, hlt]
        rfl
      · rw [rtrim_cons_of_rtrim_ne_nil c t hrt]
        have hstep : ltrimChars (c :: rtrimChars t) = ltrimChars (rtrimChars t) := by
          simp [ltrimChars, List.dropWhile_cons, hc]
        rw [hstep, ih]
    · have hcf : jsIsWhitespace c = false := by simpa using hc
      have hl : ltrimChars (c :: t) = c :: t := by
        simp [ltrimChars, List.dropWhile_cons, hcf]
      have h1 : rtrimChars (c :: t) = c :: rtrimChars t := rtrim_cons_of_not_ws c t hcf
      rw [hl, h1]
      simp [ltrimChars, List.dropWhile_cons, hcf]

theorem rtrim_idem (l : List Char) : rtrimChars (rtrimChars l) = rtrimChars l := by
  unfold rtrimChars
  rw [List.reverse_reverse, dropWhile_idem]

theorem trim_invariant_parts (s : String) (h : jsTrim s = s) :
    ltrimChars s.data = s.data ∧ rtrimChars s.data = s.data := by
  have hdata : rtrimChars (ltrimChars s.data) = s.data := by
    have h2 := congrArg String.data h
    rw [jsTrim_eq] at h2
    exact h2
  constructor
  · calc ltrimChars s.data
        = ltrimChars (rtrimChars (ltrimChars s.data)) := by rw [hdata]
      _ = rtrimChars (ltrimChars (ltrimChars s.data)) := ltrim_rtrim_comm _
      _ = rtrimChars (ltrimChars s.data) := by
            unfold ltrimChars
            rw [dropWhile_idem]
      _ = s.data := hdata
  · calc rtrimChars s.data
        = rtrimChars (rtrimChars (ltrimChars s.data)) := by rw [hdata]
      _ = rtrimChars (ltrimChars s.data) := rtrim_idem _
      _ = s.data := hdata

theorem head_not_ws_of_ltrim_eq_self (l : List Char) (h : ltrimChars l = l) :
    ∀ c t, l = c :: t → jsIsWhitespace c = false := by
  intro c t hl
  subst hl
  by_cases hc : jsIsWhitespace c = true
  · exfalso
    have hdrop : ltrimChars (c :: t) = ltrimChars t := by
      simp [ltrimChars, List.dropWhile_cons, hc]
    rw [hdrop] at h
    have hlen : (ltrimChars t).length ≤ t.length :=
      (List.dropWhile_sublist jsIsWhitespace).length_le
    have hcon := congrArg List.length h
    simp at hcon
    omega
  · simpa using hc

theorem rtrim_append_of_sep (xs ys : List Char) (a : Char)
    (ha : jsIsWhitespace a = false) :
    rtrimChars ((xs ++ [a]) ++ ys) = (xs ++ [a]) ++ rtrimChars ys := by
  unfold rtrimChars
  rw [List.reverse_append, List.dropWhile_append]
  by_cases h : (ys.reverse.dropWhile jsIsWhitespace).isEmpty
  · have he : ys.reverse.dropWhile jsIsWhitespace = [] := by simpa using h
    rw [if_pos h, he]
    have hrev : (xs ++ [a]).reverse = a :: xs.reverse := by simp
    rw [hrev]
    simp [List.dropWhile_cons, ha]
  · rw [if_neg h]
    simp

theorem rtrim_eq_self_of_last (l' : List Char) (a : Char)
    (ha : jsIsWhitespace a = false) : rtrimChars (l' ++ [a]) = l' ++ [a] := by
  unfold rtrimChars
  rw [List.reverse_append]
  simp [List.dropWhile_cons, ha]

/-- A field that CSV quoting round-trips structurally: it contains neither a
double quote (which the line parser drops) nor a newline (which the line
splitter cuts). -/
def goodField (f : String) : Prop := '"' ∉ f.data ∧ '\n' ∉ f.data

theorem fold_plain (cs : List Char) (res : List (List Char)) (cur : List Char)
    (h : ∀ c ∈ cs, c ≠ '"' ∧ c ≠ ',') :
    cs.foldl CSVImporter.csvLineStep (res, cur, false) = (res, cur ++ cs, false) := by
  induction cs generalizing cur with
  | nil => simp
  | cons c cs ih =>
    have hc := h c (List.mem_cons_self c cs)
    rw [List.foldl_cons]
    have hstep : CSVImporter.csvLineStep (res, cur, false) c = (res, cur ++ [c], false) := by
      simp [CSVImporter.csvLineStep, hc.1, hc.2]
    rw [hstep, ih (cur ++ [c]) (fun x hx => h x (List.mem_cons_of_mem c hx))]
    simp

theorem fold_quoted (cs : List Char) (res : List (List Char)) (cur : List Char)
    (h : ∀ c ∈ cs, c ≠ '"') :
    cs.foldl CSVImporter.csvLineStep (res, cur, true) = (res, cur ++ cs, true) := by
  induction cs generalizing cur with
  | nil => simp
  | cons c cs ih =>
    have hc := h c (List.mem_cons_self c cs)
    rw [List.foldl_cons]
    have hstep : CSVImporter.csvLineStep (res, cur, true) c = (res, cur ++ [c], true) := by
      simp [CSVImporter.csvLineStep, hc]
    rw [hstep, ih (cur ++ [c]) (fun x hx => h x (List.mem_cons_of_mem c hx))]
    simp

theorem flatMap_no_quote (l : List Char) (h : '"' ∉ l) :
    (l.flatMap fun c => if c = '"' then ['"', '"'] else [c]) = l := by
  induction l with
  | nil => rfl
  | cons c t ih =>
    have hc : c ≠ '"' := fun hcq => h (hcq ▸ List.mem_cons_self c t)
    simp only [List.flatMap_cons, if_neg hc]
    rw [ih (fun hm => h (List.mem_cons_of_mem c hm))]
    rfl

theorem fold_escape (f : String) (res : List (List Char)) (cur : List Char)
    (hg : goodField f) :
    (SongManager.escapeCSVField f).data.foldl CSVImporter.csvLineStep (res, cur, false)
      = (res, cur ++ f.data, false) := by
  unfold SongManager.escapeCSVField
  by_cases hcomma : f.data.contains ','
  · have hmemc : ',' ∈ f.data := by simpa using hcomma
    have hcond : (f.data.contains ',' || f.data.contains '"'
        || f.data.contains '\n') = true := by
      simp [hmemc]
    rw [if_pos hcond]
    have hdq : ("\"" ++ (⟨f.data.flatMap fun c =>
          if c = '"' then ['"', '"'] else [c]⟩ : String) ++ "\"").data
        = '"' :: (f.data ++ ['"']) := by
      rw [String.data_append, String.data_append, flatMap_no_quote f.data hg.1]
      simp
    rw [hdq, List.foldl_cons]
    have hstep1 : CSVImporter.csvLineStep (res, cur, false) '"' = (res, cur, true) := by
      simp [CSVImporter.csvLineStep]
    rw [hstep1, List.foldl_append]
    rw [fold_quoted f.data res cur (fun c hc => fun hcq => hg.1 (hcq ▸ hc))]
    have hstep2 : CSVImporter.csvLineStep (res, cur ++ f.data, true) '"'
        = (res, cur ++ f.data, false) := by
      simp [CSVImporter.csvLineStep]
    simp [hstep2]
  · have hcm : ',' ∉ f.data := fun hm => hcomma (by simpa using hm)
    have hcond : (f.data.contains ',' || f.data.contains '"'
        || f.data.contains '\n') = false := by
      simp
      exact ⟨⟨hcm, hg.1⟩, hg.2⟩
    have hcond2 : ¬((f.data.contains ',' || f.data.contains '"'
        || f.data.contains '\n') = true) := by
      rw [hcond]
      simp
    rw [if_neg hcond2]
    refine fold_plain f.data res cur ?_
    intro c hc
    exact ⟨fun hcq => hg.1 (hcq ▸ hc), fun hcc => hcm (hcc ▸ hc)⟩

theorem joinSep_data_cons (sep : Char) (x y : String) (rest : List String) :
    (joinSep sep (x :: y :: rest)).data
      = x.data ++ sep :: (joinSep sep (y :: rest)).data := by
  show (x ++ (⟨[sep]⟩ : String) ++ joinSep sep (y :: rest)).data = _
  rw [String.data_append, String.data_append]
  simp

theorem joinSep_data_concat (sep : Char) (l : List String) (x : String) (h : l ≠ []) :
    (joinSep sep (l ++ [x])).data = (joinSep sep l).data ++ sep :: x.data := by
  induction l with
  | nil => exact absurd rfl h
  | cons y l ih =>
    cases l with
    | nil =>
      show (y ++ (⟨[sep]⟩ : String) ++ joinSep sep [x]).data = _
      rw [String.data_append, String.data_append]
      simp [joinSep]
    | cons z l' =>
      have ih' := ih (by simp)
      rw [List.cons_append] at ih'
      rw [List.cons_append, List.cons_append, joinSep_data_cons, ih',
        joinSep_data_cons]
      simp

/-- The (pushed fields, final current field) state the character loop reaches
after a comma-joined row of escaped fields. -/
def rowFoldResult (f : String) : List String → List (List Char) × List Char
  | [] => ([], f.data)
  | g :: gs => (f.data :: (rowFoldResult g gs).1, (rowFoldResult g gs).2)

theorem fold_join (fields : List String) (f : String) (res : List (List Char))
    (hg : goodField f) (hgs : ∀ x ∈ fields, goodField x) :
    (joinSep ',' ((f :: fields).map SongManager.escapeCSVField)).data.foldl
        CSVImporter.csvLineStep (res, [], false)
      = (res ++ (rowFoldResult f fields).1, (rowFoldResult f fields).2, false) := by
  induction fields generalizing f res with
  | nil =>
    show (SongManager.escapeCSVField f).data.foldl CSVImporter.csvLineStep
        (res, [], false) = _
    rw [fold_escape f res [] hg]
    simp [rowFoldResult]
  | cons g gs ih =>
    rw [List.map_cons, List.map_cons, joinSep_data_cons, List.foldl_append,
      List.foldl_cons]
    rw [show (SongManager.escapeCSVField f).data.foldl CSVImporter.csvLineStep
        (res, [], false) = (res, f.data, false) from by
      rw [fold_escape f res [] hg]; simp]
    have hstep : CSVImporter.csvLineStep (res, f.data, false) ','
        = (res ++ [f.data], [], false) := by
      simp [CSVImporter.csvLineStep]
    rw [hstep]
    have ihg := ih g (res ++ [f.data]) (hgs g (List.mem_cons_self g gs))
      (fun x hx => hgs x (List.mem_cons_of_mem g hx))
    rw [List.map_cons] at ihg
    rw [ihg]
    simp [rowFoldResult]

theorem rowFoldResult_flatten (f : String) (fields : List String) :
    (rowFoldResult f fields).1 ++ [(rowFoldResult f fields).2]
      = f.data :: fields.map String.data := by
  induction fields generalizing f with
  | nil => rfl
  | cons g gs ih =>
    simp only [rowFoldResult, List.cons_append, List.map_cons]
    rw [ih g]

theorem parseCSVLine_join (f : String) (fields : List String)
    (hg : goodField f) (hgs : ∀ x ∈ fields, goodField x) :
    CSVImporter.parseCSVLine (joinSep ',' ((f :: fields).map SongManager.escapeCSVField))
      = f :: fields := by
  unfold CSVImporter.parseCSVLine
  rw [fold_join fields f [] hg hgs]
  show (([] ++ (rowFoldResult f fields).1) ++ [(rowFoldResult f fields).2]).map
      (fun g => (⟨g⟩ : String)) = f :: fields
  rw [List.nil_append, rowFoldResult_flatten f fields]
  simp only [List.map_cons, List.map_map]
  rw [stringEta]
  refine congrArg _ ?_
  have hpt : ∀ x ∈ fields, ((fun g => (⟨g⟩ : String)) ∘ String.data) x = id x := by
    intro x hx
    simp [Function.comp, stringEta]
  rw [List.map_congr_left hpt, List.map_id]

theorem jsSplitChar_no_sep (sep : Char) (l : List Char) (h : sep ∉ l) :
    jsSplitChar sep l = [l] := by
  induction l with
  | nil => rfl
  | cons c t ih =>
    have hc : ¬c = sep := fun hq => h (hq ▸ List.mem_cons_self c t)
    rw [jsSplitChar, if_neg hc, ih (fun hm => h (List.mem_cons_of_mem c hm))]

theorem jsSplitChar_append (sep : Char) (xs ys : List Char) (h : sep ∉ xs) :
    jsSplitChar sep (xs ++ sep :: ys) = xs :: jsSplitChar sep ys := by
  induction xs with
  | nil =>
    show jsSplitChar sep (sep :: ys) = [] :: jsSplitChar sep ys
    rw [jsSplitChar, if_pos rfl]
  | cons c xs ih =>
    have hc : ¬c = sep := fun hq => h (hq ▸ List.mem_cons_self c xs)
    show jsSplitChar sep (c :: (xs ++ sep :: ys)) = _
    rw [jsSplitChar, if_neg hc, ih (fun hm => h (List.mem_cons_of_mem c hm))]

theorem jsSplitChar_join (sep : Char) (x : String) (rest : List String)
    (h : ∀ y ∈ x :: rest, sep ∉ y.data) :
    jsSplitChar sep (joinSep sep (x :: rest)).data
      = (x :: rest).map String.data := by
  induction rest generalizing x with
  | nil =>
    show jsSplitChar sep x.data = [x.data]
    exact jsSplitChar_no_sep sep x.data (h x (List.mem_cons_self x []))
  | cons y rest ih =>
    rw [joinSep_data_cons, jsSplitChar_append sep x.data
      (joinSep sep (y :: rest)).data (h x (List.mem_cons_self x _))]
    rw [ih y (fun z hz => h z (List.mem_cons_of_mem x hz))]
    rfl

theorem escape_no_newline (f : String) (hg : goodField f) :
    '\n' ∉ (SongManager.escapeCSVField f).data := by
  unfold SongManager.escapeCSVField
  by_cases hcond : (f.data.contains ',' || f.data.contains '"'
      || f.data.contains '\n') = true
  · rw [if_pos hcond]
    rw [String.data_append, String.data_append, flatMap_no_quote f.data hg.1]
    intro hm
    rcases List.mem_append.mp hm with hm | hm
    · rcases List.mem_append.mp hm with hm | hm
      · simp at hm
      · exact hg.2 hm
    · simp at hm
  · rw [if_neg hcond]
    exact hg.2

theorem joinComma_no_newline (l : List String) (h : ∀ x ∈ l, '\n' ∉ x.data) :
    '\n' ∉ (joinSep ',' l).data := by
  induction l with
  | nil => simp [joinSep]
  | cons x rest ih =>
    cases rest with
    | nil => exact h x (List.mem_cons_self x [])
    | cons y rest' =>
      rw [joinSep_data_cons]
      intro hm
      rcases List.mem_append.mp hm with hm | hm
      · exact h x (List.mem_cons_self x _) hm
      · rcases List.mem_cons.mp hm with hm | hm
        · simp at hm
        · exact ih (fun z hz => h z (List.mem_cons_of_mem x hz)) hm

/-- The hypotheses the amended round-trip claim places on one song: no field
contains a double quote or newline; the two name fields carry no edge
whitespace; state and type are values of the fixed enumerations. -/
def goodSong (s : Song) : Prop :=
  goodField s.songName ∧ goodField s.artistName ∧ goodField s.comments
    ∧ goodField s.youtubeLink
    ∧ jsTrim s.songName = s.songName ∧ jsTrim s.artistName = s.artistName
    ∧ s.state ∈ CSVImporter.stateMap.map Prod.fst
    ∧ s.type ∈ CSVImporter.typeMap.map Prod.fst

instance goodFieldDecidable (f : String) : Decidable (goodField f) := by
  unfold goodField
  infer_instance

instance goodSongDecidable (s : Song) : Decidable (goodSong s) := by
  unfold goodSong
  infer_instance

theorem stateEnum_facts (x : String) (hx : x ∈ CSVImporter.stateMap.map Prod.fst) :
    goodField x ∧ jsTrim x = x ∧ CSVImporter.mapState x = x := by
  simp only [CSVImporter.stateMap, List.map_cons, List.map_nil, List.mem_cons,
    List.mem_singleton] at hx
  rcases hx with rfl | rfl | rfl | rfl | (rfl | h)
  · exact ⟨by decide, by decide, by decide⟩
  · exact ⟨by decide, by decide, by decide⟩
  · exact ⟨by decide, by decide, by decide⟩
  · exact ⟨by decide, by decide, by decide⟩
  · exact ⟨by decide, by decide, by decide⟩
  · simp at h

theorem typeEnum_facts (x : String) (hx : x ∈ CSVImporter.typeMap.map Prod.fst) :
    goodField x ∧ jsTrim x = x ∧ CSVImporter.mapType x = x := by
  simp only [CSVImporter.typeMap, List.map_cons, List.map_nil, List.mem_cons,
    List.mem_singleton] at hx
  rcases hx with rfl | (rfl | h)
  · exact ⟨by decide, by decide, by decide⟩
  · exact ⟨by decide, by decide, by decide⟩
  · simp at h

theorem escape_head_not_ws (f : String) (_hg : goodField f) (ht : jsTrim f = f) :
    ∀ c t, (SongManager.escapeCSVField f).data = c :: t → jsIsWhitespace c = false := by
  intro c t h
  unfold SongManager.escapeCSVField at h
  by_cases hcond : (f.data.contains ',' || f.data.contains '"'
      || f.data.contains '\n') = true
  · rw [if_pos hcond, String.data_append, String.data_append] at h
    have h2 : '"' :: ((f.data.flatMap fun c =>
        if c = '"' then ['"', '"'] else [c]) ++ ['"']) = c :: t := by
      simpa using h
    injection h2 with h3 h4
    rw [← h3]
    decide
  · rw [if_neg hcond] at h
    exact head_not_ws_of_ltrim_eq_self f.data (trim_invariant_parts f ht).1 c t h

theorem rtrim_subset (l : List Char) : ∀ x ∈ rtrimChars l, x ∈ l := by
  intro x hx
  unfold rtrimChars at hx
  rw [List.mem_reverse] at hx
  exact List.mem_reverse.mp ((List.dropWhile_sublist _).subset hx)

theorem row_head_not_ws (s : Song) (hs : goodSong s) :
    ∀ c t, (SongManager.songToCSVRow s).data = c :: t → jsIsWhitespace c = false := by
  intro c t h
  unfold SongManager.songToCSVRow at h
  rw [joinSep_data_cons] at h
  cases he0 : (SongManager.escapeCSVField s.songName).data with
  | nil =>
    rw [he0, List.nil_append] at h
    injection h with h1 h2
    rw [← h1]
    decide
  | cons c0 t0 =>
    rw [he0, List.cons_append] at h
    injection h with h1 h2
    rw [← h1]
    exact escape_head_not_ws s.songName hs.1 hs.2.2.2.2.1 c0 t0 he0

theorem parse_trimmed_row (s : Song) (hs : goodSong s) :
    ∃ linkR : String,
      goodField linkR
        ∧ CSVImporter.parseCSVLine (jsTrim (SongManager.songToCSVRow s))
            = [s.songName, s.artistName, s.state, s.type, s.comments, linkR]
        ∧ jsTrim linkR = jsTrim s.youtubeLink := by
  obtain ⟨hgSN, hgAN, hgCM, hgYT, htSN, htAN, hstate, htype⟩ := hs
  obtain ⟨hgST, htST, hmapST⟩ := stateEnum_facts s.state hstate
  obtain ⟨hgTY, htTY, hmapTY⟩ := typeEnum_facts s.type htype
  have hhead := row_head_not_ws s ⟨hgSN, hgAN, hgCM, hgYT, htSN, htAN, hstate, htype⟩
  have hltrim : ltrimChars (SongManager.songToCSVRow s).data
      = (SongManager.songToCSVRow s).data := ltrim_eq_self_of_head _ hhead
  have htrimrow : jsTrim (SongManager.songToCSVRow s)
      = (⟨rtrimChars (SongManager.songToCSVRow s).data⟩ : String) := by
    rw [jsTrim_eq, hltrim]
  have hrowdata : (SongManager.songToCSVRow s).data
      = (joinSep ',' [SongManager.escapeCSVField s.songName,
          SongManager.escapeCSVField s.artistName,
          SongManager.escapeCSVField s.state,
          SongManager.escapeCSVField s.type,
          SongManager.escapeCSVField s.comments]).data
        ++ ',' :: (SongManager.escapeCSVField s.youtubeLink).data := by
    unfold SongManager.songToCSVRow
    exact joinSep_data_concat ',' [SongManager.escapeCSVField s.songName,
      SongManager.escapeCSVField s.artistName, SongManager.escapeCSVField s.state,
      SongManager.escapeCSVField s.type, SongManager.escapeCSVField s.comments]
      (SongManager.escapeCSVField s.youtubeLink) (by simp)
  by_cases hlq : (s.youtubeLink.data.contains ',' || s.youtubeLink.data.contains '"'
      || s.youtubeLink.data.contains '\n') = true
  · have hescdata : (SongManager.escapeCSVField s.youtubeLink).data
        = ('"' :: (s.youtubeLink.data.flatMap fun c =>
            if c = '"' then ['"', '"'] else [c])) ++ ['"'] := by
      unfold SongManager.escapeCSVField
      rw [if_pos hlq, String.data_append, String.data_append]
      simp
    have hlast : rtrimChars (SongManager.songToCSVRow s).data
        = (SongManager.songToCSVRow s).data := by
      rw [hrowdata, hescdata]
      have hassoc : (joinSep ',' [SongManager.escapeCSVField s.songName,
            SongManager.escapeCSVField s.artistName, SongManager.escapeCSVField s.state,
            SongManager.escapeCSVField s.type, SongManager.escapeCSVField s.comments]).data
            ++ ',' :: (('"' :: (s.youtubeLink.data.flatMap fun c =>
                if c = '"' then ['"', '"'] else [c])) ++ ['"'])
          = ((joinSep ',' [SongManager.escapeCSVField s.songName,
              SongManager.escapeCSVField s.artistName, SongManager.escapeCSVField s.state,
              SongManager.escapeCSVField s.type, SongManager.escapeCSVField s.comments]).data
              ++ ',' :: '"' :: (s.youtubeLink.data.flatMap fun c =>
                if c = '"' then ['"', '"'] else [c])) ++ ['"'] := by
        simp
      rw [hassoc, rtrim_eq_self_of_last _ '"' (by decide)]
    refine ⟨s.youtubeLink, hgYT, ?_, rfl⟩
    rw [htrimrow, hlast, stringEta]
    have hjoin : SongManager.songToCSVRow s
        = joinSep ',' ((s.songName :: [s.artistName, s.state, s.type, s.comments,
            s.youtubeLink]).map SongManager.escapeCSVField) := rfl
    rw [hjoin]
    refine parseCSVLine_join s.songName _ hgSN ?_
    intro x hx
    simp only [List.mem_cons, List.mem_singleton] at hx
    rcases hx with rfl | rfl | rfl | rfl | (rfl | hx)
    · exact hgAN
    · exact hgST
    · exact hgTY
    · exact hgCM
    · exact hgYT
    · simp at hx
  · have hesc : SongManager.escapeCSVField s.youtubeLink = s.youtubeLink := by
      unfold SongManager.escapeCSVField
      rw [if_neg hlq]
    simp only [Bool.or_eq_true, not_or] at hlq
    have hm1 : ',' ∉ s.youtubeLink.data := by
      intro hm
      exact hlq.1.1 (by simpa using hm)
    have hm2 : '"' ∉ s.youtubeLink.data := by
      intro hm
      exact hlq.1.2 (by simpa using hm)
    have hm3 : '\n' ∉ s.youtubeLink.data := by
      intro hm
      exact hlq.2 (by simpa using hm)
    have hR1 : ',' ∉ (⟨rtrimChars s.youtubeLink.data⟩ : String).data :=
      fun hm => hm1 (rtrim_subset _ _ hm)
    have goodR : goodField (⟨rtrimChars s.youtubeLink.data⟩ : String) :=
      ⟨fun hm => hm2 (rtrim_subset _ _ hm), fun hm => hm3 (rtrim_subset _ _ hm)⟩
    have hescR : SongManager.escapeCSVField (⟨rtrimChars s.youtubeLink.data⟩ : String)
        = (⟨rtrimChars s.youtubeLink.data⟩ : String) := by
      unfold SongManager.escapeCSVField
      have hcondR : ¬(((⟨rtrimChars s.youtubeLink.data⟩ : String).data.contains ','
          || (⟨rtrimChars s.youtubeLink.data⟩ : String).data.contains '"'
          || (⟨rtrimChars s.youtubeLink.data⟩ : String).data.contains '\n') = true) := by
        simp
        exact ⟨⟨hR1, goodR.1⟩, goodR.2⟩
      rw [if_neg hcondR]
    have htrimlink : jsTrim (⟨rtrimChars s.youtubeLink.data⟩ : String)
        = jsTrim s.youtubeLink := by
      rw [jsTrim_eq, jsTrim_eq]
      show (⟨rtrimChars (ltrimChars (rtrimChars s.youtubeLink.data))⟩ : String) = _
      rw [ltrim_rtrim_comm, rtrim_idem]
    have hrtrim : rtrimChars (SongManager.songToCSVRow s).data
        = (joinSep ',' ((s.songName :: [s.artistName, s.state, s.type, s.comments,
            (⟨rtrimChars s.youtubeLink.data⟩ : String)]).map
              SongManager.escapeCSVField)).data := by
      rw [hrowdata, hesc]
      have hassoc : (joinSep ',' [SongManager.escapeCSVField s.songName,
            SongManager.escapeCSVField s.artistName, SongManager.escapeCSVField s.state,
            SongManager.escapeCSVField s.type, SongManager.escapeCSVField s.comments]).data
            ++ ',' :: s.youtubeLink.data
          = ((joinSep ',' [SongManager.escapeCSVField s.songName,
              SongManager.escapeCSVField s.artistName, SongManager.escapeCSVField s.state,
              SongManager.escapeCSVField s.type, SongManager.escapeCSVField s.comments]).data
              ++ [',']) ++ s.youtubeLink.data := by
        simp
      rw [hassoc, rtrim_append_of_sep _ _ ',' (by decide)]
      have hback : (joinSep ',' ((s.songName :: [s.artistName, s.state, s.type,
            s.comments, (⟨rtrimChars s.youtubeLink.data⟩ : String)]).map
              SongManager.escapeCSVField)).data
          = (joinSep ',' [SongManager.escapeCSVField s.songName,
              SongManager.escapeCSVField s.artistName, SongManager.escapeCSVField s.state,
              SongManager.escapeCSVField s.type, SongManager.escapeCSVField s.comments]).data
            ++ ',' :: (⟨rtrimChars s.youtubeLink.data⟩ : String).data := by
        have hmap : (s.songName :: [s.artistName, s.state, s.type, s.comments,
            (⟨rtrimChars s.youtubeLink.data⟩ : String)]).map SongManager.escapeCSVField
            = [SongManager.escapeCSVField s.songName,
               SongManager.escapeCSVField s.artistName, SongManager.escapeCSVField s.state,
               SongManager.escapeCSVField s.type, SongManager.escapeCSVField s.comments]
              ++ [(⟨rtrimChars s.youtubeLink.data⟩ : String)] := by
          simp [hescR]
        rw [hmap, joinSep_data_concat _ _ _ (by simp)]
      rw [hback]
      simp
    refine ⟨(⟨rtrimChars s.youtubeLink.data⟩ : String), goodR, ?_, htrimlink⟩
    rw [htrimrow]
    have hlift : (⟨rtrimChars (SongManager.songToCSVRow s).data⟩ : String)
        = joinSep ',' ((s.songName :: [s.artistName, s.state, s.type, s.comments,
            (⟨rtrimChars s.youtubeLink.data⟩ : String)]).map
              SongManager.escapeCSVField) := by
      rw [hrtrim, stringEta]
    rw [hlift]
    refine parseCSVLine_join s.songName _ hgSN ?_
    intro x hx
    simp only [List.mem_cons, List.mem_singleton] at hx
    rcases hx with rfl | rfl | rfl | rfl | (rfl | hx)
    · exact hgAN
    · exact hgST
    · exact hgTY
    · exact hgCM
    · exact goodR
    · simp at hx

theorem row_no_newline (s : Song) (hs : goodSong s) :
    '\n' ∉ (SongManager.songToCSVRow s).data := by
  obtain ⟨hgSN, hgAN, hgCM, hgYT, _, _, hstate, htype⟩ := hs
  obtain ⟨hgST, _, _⟩ := stateEnum_facts s.state hstate
  obtain ⟨hgTY, _, _⟩ := typeEnum_facts s.type htype
  unfold SongManager.songToCSVRow
  refine joinComma_no_newline _ ?_
  intro x hx
  simp only [List.mem_cons, List.mem_singleton] at hx
  rcases hx with rfl | rfl | rfl | rfl | (rfl | (rfl | hx))
  · exact escape_no_newline _ hgSN
  · exact escape_no_newline _ hgAN
  · exact escape_no_newline _ hgST
  · exact escape_no_newline _ hgTY
  · exact escape_no_newline _ hgCM
  · exact escape_no_newline _ hgYT
  · simp at hx

theorem parseRows_rows (songs : List Song) (i : Nat)
    (h : ∀ s ∈ songs, goodSong s) :
    (CSVImporter.parseRows true i
        ((songs.map SongManager.songToCSVRow).map String.data)).map
        (fun s => (s.artistName, s.songName, s.state, s.type, s.comments,
          s.youtubeLink))
      = songs.map (fun s => (s.artistName, s.songName, s.state, s.type,
          jsTrim s.comments, jsTrim s.youtubeLink)) := by
  induction songs generalizing i with
  | nil => rfl
  | cons s rest ih =>
    have hsg := h s (List.mem_cons_self s rest)
    obtain ⟨_, _, _, _, htSN, htAN, hstate, htype⟩ := hsg
    obtain ⟨_, htST, hmapST⟩ := stateEnum_facts s.state hstate
    obtain ⟨_, htTY, hmapTY⟩ := typeEnum_facts s.type htype
    obtain ⟨linkR, hgR, hparse, htrimR⟩ :=
      parse_trimmed_row s (h s (List.mem_cons_self s rest))
    have hne : (jsTrim (SongManager.songToCSVRow s) == "") = false := by
      rcases hbe : (jsTrim (SongManager.songToCSVRow s) == "") with _ | _
      · rfl
      · exfalso
        have hz : jsTrim (SongManager.songToCSVRow s) = "" := beq_iff_eq.mp hbe
        rw [hz] at hparse
        have hone : CSVImporter.parseCSVLine "" = [""] := rfl
        rw [hone] at hparse
        simp at hparse
    have hlen : (CSVImporter.parseCSVLine
        (jsTrim (SongManager.songToCSVRow s))).length ≥ 4 := by
      rw [hparse]
      simp
    simp only [List.map_cons]
    rw [CSVImporter.parseRows, stringEta, if_neg (by rw [hne]; simp), if_pos hlen,
      hparse]
    have hhead : CSVImporter.rowToSong true (toString i)
        [s.songName, s.artistName, s.state, s.type, s.comments, linkR]
        = { artistName := jsTrim s.artistName, songName := jsTrim s.songName,
            youtubeLink := jsTrim linkR,
            state := CSVImporter.mapState (jsTrim s.state),
            type := CSVImporter.mapType (jsTrim s.type),
            comments := jsTrim s.comments, id := toString i } := rfl
    rw [List.map_cons, hhead]
    rw [ih (i + 1) (fun x hx => h x (List.mem_cons_of_mem s hx))]
    rw [htSN, htAN, htST, hmapST, htTY, hmapTY, htrimR]

/-- C6 (amended): for every song set in which no field contains a double
quote or newline, the two name fields carry no edge whitespace, and state
and type are enumeration values, exporting to CSV and re-parsing with the
new-layout parser reproduces artistName, songName, state, and type exactly,
while comments and youtubeLink come back trimmed — a whitespace-only
difference. -/
theorem csv_roundTrip_amended (songs : List Song) (h : ∀ s ∈ songs, goodSong s) :
    (CSVImporter.parseCSV (SongManager.generateCSVContent songs)).map
        (fun s => (s.artistName, s.songName, s.state, s.type, s.comments,
          s.youtubeLink))
      = songs.map (fun s => (s.artistName, s.songName, s.state, s.type,
          jsTrim s.comments, jsTrim s.youtubeLink)) := by
  have hsplit : jsSplitChar '\n' (SongManager.generateCSVContent songs).data
      = ("Nombre,Artista,Estado,Tipo,Comentarios,YouTube" : String).data
        :: (songs.map SongManager.songToCSVRow).map String.data := by
    unfold SongManager.generateCSVContent
    rw [jsSplitChar_join '\n' _ _ ?_]
    · rw [List.map_cons]
    · intro y hy
      rcases List.mem_cons.mp hy with rfl | hy
      · decide
      · rcases List.mem_map.mp hy with ⟨s, hsm, rfl⟩
        exact row_no_newline s (h s hsm)
  have hcsv : CSVImporter.parseCSV (SongManager.generateCSVContent songs)
      = CSVImporter.parseRows
          ((((jsSplitChar ','
              ("Nombre,Artista,Estado,Tipo,Comentarios,YouTube" : String).data).map
                fun hf => jsTrim ⟨hf⟩).contains "Estado")
            && (((jsSplitChar ','
              ("Nombre,Artista,Estado,Tipo,Comentarios,YouTube" : String).data).map
                fun hf => jsTrim ⟨hf⟩).contains "Tipo"))
          1 ((songs.map SongManager.songToCSVRow).map String.data) := by
    unfold CSVImporter.parseCSV
    rw [hsplit]
  have hfmt : ((((jsSplitChar ','
        ("Nombre,Artista,Estado,Tipo,Comentarios,YouTube" : String).data).map
          fun hf => jsTrim ⟨hf⟩).contains "Estado")
      && (((jsSplitChar ','
        ("Nombre,Artista,Estado,Tipo,Comentarios,YouTube" : String).data).map
          fun hf => jsTrim ⟨hf⟩).contains "Tipo")) = true := by decide
  rw [hcsv, hfmt]
  exact parseRows_rows songs 1 h

/-- A concrete two-song catalog exercising comma quoting and comment
whitespace. -/
def witnessSongs : List Song :=
  [{ artistName := "Los Alpes", songName := "Cumbia, si", youtubeLink := "",
     state := "Aprobado", type := "Movido", comments := " nice ", id := "w1" },
   { artistName := "Trio", songName := "Vals", youtubeLink := "http://x",
     state := "Listo", type := "Lento", comments := "", id := "w2" }]

/-- Witness for C6 on a concrete two-song catalog exercising comma quoting
and comment whitespace: the round trip reproduces names, states and types
exactly and trims the comments. -/
theorem csv_roundTrip_amended_witness :
    (∀ s ∈ witnessSongs, goodSong s)
    ∧ (CSVImporter.parseCSV (SongManager.generateCSVContent witnessSongs)).map
        (fun s => (s.artistName, s.songName, s.state, s.type, s.comments,
          s.youtubeLink))
      = [("Los Alpes", "Cumbia, si", "Aprobado", "Movido", "nice", ""),
         ("Trio", "Vals", "Listo", "Lento", "", "http://x")] := by
  constructor
  · intro s hs
    rcases List.mem_cons.mp hs with rfl | hs
    · decide
    · rcases List.mem_singleton.mp hs with rfl
      decide
  · rw [csv_roundTrip_amended witnessSongs (by
      intro s hs
      rcases List.mem_cons.mp hs with rfl | hs
      · decide
      · rcases List.mem_singleton.mp hs with rfl
        decide)]
    decide
